import Mathlib

/-!
Shallow embedding of the gutmetrics preprocessing core
(`src/gutmetrics/preprocessing/cleaning.py` and
`src/gutmetrics/preprocessing/scaling.py`).

A pandas `DataFrame` is modelled column-major: a list of named, dtype-tagged
columns of cells, plus an index (row keys).  Cells are `Option ℚ`: `none`
models a missing value (`NaN`); rational numbers model the (finite) floats
exactly.  Failure (`raise ValueError` / `KeyError`) is modelled with
`Except Err`.  The in-place/aliasing behaviour of the scaling functions is
modelled with an explicit heap (`List Table`) and references (`Nat`).
-/

namespace GutMetrics

/-- pandas column dtypes that matter to the code: the two numeric dtypes the
validator accepts, and `obj` standing for any other (non-numeric) dtype. -/
inductive DType
  | float64
  | int64
  | obj
deriving DecidableEq

/-- A cell of a table: `none` is a missing value (pandas `NaN`). -/
abbrev Cell := Option ℚ

/-- One named column of a `DataFrame`, with its dtype tag and cell values. -/
structure Col where
  name : String
  dtype : DType
  vals : List Cell
deriving DecidableEq

instance : Inhabited Col := ⟨⟨"", DType.obj, []⟩⟩

/-- A pandas `DataFrame`: an index (row keys, possibly named and dtype-tagged)
and a list of columns.  Well-formedness (`Table.WF`) asks every column to have
as many cells as there are rows. -/
structure Table where
  indexName : Option String
  indexDType : DType
  index : List Cell
  cols : List Col
deriving DecidableEq

instance : Inhabited Table := ⟨⟨none, DType.obj, [], []⟩⟩

/-- Number of rows of the table. -/
def Table.nrows (t : Table) : Nat := t.index.length

/-- Column names, in table order (`df.columns`). -/
def Table.colNames (t : Table) : List String := t.cols.map Col.name

/-- `col in df.columns`. -/
def Table.hasCol (t : Table) (s : String) : Bool := decide (s ∈ t.colNames)

/-- `df[s]`: the first column named `s`, if any (pandas raises `KeyError`
when there is none). -/
def Table.getCol (t : Table) (s : String) : Option Col :=
  t.cols.find? (fun c => c.name == s)

/-- pandas `df.empty`: true when either axis has length zero. -/
def Table.emptyB (t : Table) : Bool := t.index.isEmpty || t.cols.isEmpty

/-- Every column has one cell per row. -/
def Table.WF (t : Table) : Prop :=
  ∀ c ∈ t.cols, c.vals.length = t.index.length

instance (t : Table) : Decidable t.WF := by
  unfold Table.WF; infer_instance

/-- No missing values anywhere in the columns of the table. -/
def Table.NoNA (t : Table) : Prop :=
  ∀ c ∈ t.cols, ∀ v ∈ c.vals, v.isSome = true

instance (t : Table) : Decidable t.NoNA := by
  unfold Table.NoNA; infer_instance

/-- The validation failures raised by the cleaning module (all `ValueError`s
in the source except `keyError`, which models pandas' own `KeyError` on a
missing column lookup).  Payloads record what the message interpolates:
`missingColumns` carries the missing names that the message comma-joins
(empty for the microbiome "No bacterial OTU columns found" message, which
names no columns), `nonNumericData` the offending column names, and
`insufficientDepth` the row identifiers below the read threshold. -/
inductive Err
  | emptyInput
  | keyError (col : String)
  | duplicateKey
  | missingColumns (missing : List String)
  | nonNumericData (cols : List String)
  | insufficientDepth (ids : List Cell)
  | notNormalized
deriving DecidableEq

instance {ε α : Type} [DecidableEq ε] [DecidableEq α] : DecidableEq (Except ε α) :=
  fun a b =>
    match a, b with
    | Except.ok x, Except.ok y =>
      if h : x = y then isTrue (by rw [h]) else isFalse (by intro hc; cases hc; exact h rfl)
    | Except.error x, Except.error y =>
      if h : x = y then isTrue (by rw [h]) else isFalse (by intro hc; cases hc; exact h rfl)
    | Except.ok _, Except.error _ => isFalse (by intro hc; cases hc)
    | Except.error _, Except.ok _ => isFalse (by intro hc; cases hc)

/-! ### Generic helpers (string containment, duplicates, masking, quantiles) -/

/-- `p` is an initial segment of `s` (on character lists). -/
def charsStartWith : List Char → List Char → Bool
  | _, [] => true
  | [], _ :: _ => false
  | a :: s, b :: p => a == b && charsStartWith s p

/-- `p` occurs as a contiguous substring of `s` (on character lists),
modelling Python's `p in s`. -/
def charsHaveSub : List Char → List Char → Bool
  | [], p => p.isEmpty
  | a :: s, p => charsStartWith (a :: s) p || charsHaveSub s p

/-- Python `"bacteria" in name.lower()`. -/
def isBacteriaCol (name : String) : Bool :=
  charsHaveSub (name.toList.map Char.toLower) (("bacteria").toList)

/-- pandas `Series.duplicated().any()`: some value occurs more than once. -/
def hasDup : List Cell → Bool
  | [] => false
  | a :: t => decide (a ∈ t) || hasDup t

/-- Boolean-mask row selection `xs[mask]` (pandas boolean indexing). -/
def maskFilter {α : Type} : List Bool → List α → List α
  | _, [] => []
  | [], _ :: _ => []
  | b :: ms, x :: xs => if b then x :: maskFilter ms xs else maskFilter ms xs

/-- The non-missing values of a column (pandas drops `NaN` before
quantiles and skips it in sums). -/
def dropNA (l : List Cell) : List ℚ := l.filterMap id

/-- Comparisons against a scalar on a cell: a missing value compares false,
as `NaN` does in pandas/numpy. -/
def cellLt (c : Cell) (b : ℚ) : Bool :=
  match c with
  | some v => decide (v < b)
  | none => false

/-- `cell >= b`, false on a missing value. -/
def cellGe (c : Cell) (b : ℚ) : Bool :=
  match c with
  | some v => decide (b ≤ v)
  | none => false

/-- `cell <= b`, false on a missing value. -/
def cellLe (c : Cell) (b : ℚ) : Bool :=
  match c with
  | some v => decide (v ≤ b)
  | none => false

/-- Ascending sort of the sample (pandas sorts before interpolating
quantiles). -/
def sortQ (l : List ℚ) : List ℚ := List.insertionSort (fun a b => a ≤ b) l

/-- pandas `Series.quantile(num/den)` with the default linear interpolation:
on the ascending sample `s` of size `n`, the value at fractional position
`h = (n-1)·(num/den)`, interpolated between the order statistics at
positions `⌊h⌋` and `⌈h⌉`.  With `pos = (n-1)·num`, these positions are the
natural-number quotient `pos / den` and, when `den` does not divide `pos`,
the next position up; the interpolation weight `h - ⌊h⌋` is
`(pos % den) / den`.  (On an empty sample pandas yields `NaN`; we return
`0`, a value never observed by the callers in this development because an
empty sample forces an all-false row mask downstream.) -/
def quantileLinear (xs : List ℚ) (num den : Nat) : ℚ :=
  let s := sortQ xs
  if s.isEmpty then 0
  else
    let pos := (s.length - 1) * num
    let lo := pos / den
    let rem := pos % den
    let hi := if rem == 0 then lo else lo + 1
    let a := s.getD lo 0
    let b := s.getD hi 0
    a + ((rem : ℚ) / (den : ℚ)) * (b - a)

/-! ### cleaning.py -/

/-- `standardize_index(df, index_col, index_type)` (cleaning.py:13-48).
Source defaults: `index_col="public_client_id"`, `index_type="float64"`.
Raises on an empty frame, then looks up `df[index_col]` (pandas `KeyError`
if absent), raises on duplicated ids, then on a copy re-keys by the column
when not already so keyed and casts the index to the requested dtype
(a cast of rational cell values is the identity; only the dtype tag
changes). -/
def standardize_index (df : Table) (indexCol : String) (indexType : DType) :
    Except Err Table :=
  if df.emptyB then Except.error Err.emptyInput
  else
    match df.getCol indexCol with
    | none => Except.error (Err.keyError indexCol)
    | some c =>
      if hasDup c.vals then Except.error Err.duplicateKey
      else
        let dfc :=
          if decide (df.indexName ≠ some indexCol) && df.hasCol indexCol then
            { df with
                indexName := some indexCol
                indexDType := c.dtype
                index := c.vals
                cols := df.cols.filter (fun k => k.name ≠ indexCol) }
          else df
        Except.ok { dfc with indexDType := indexType }

/-- `remove_outliers(data, column, n_std)` (cleaning.py:51-71).
Source default: `n_std=3.0`.  Quartiles of the named column via linear
interpolation, then boolean-mask retention of the rows whose value lies in
`[q1 - n_std*iqr, q3 + n_std*iqr]` (missing values compare false and are
dropped, as in pandas). -/
def remove_outliers (data : Table) (column : String) (n_std : ℚ) :
    Except Err Table :=
  match data.getCol column with
  | none => Except.error (Err.keyError column)
  | some c =>
    let q1 := quantileLinear (dropNA c.vals) 1 4
    let q3 := quantileLinear (dropNA c.vals) 3 4
    let iqr := q3 - q1
    let lower := q1 - n_std * iqr
    let upper := q3 + n_std * iqr
    let mask := c.vals.map (fun v => cellGe v lower && cellLe v upper)
    Except.ok
      { data with
          index := maskFilter mask data.index
          cols := data.cols.map (fun k => { k with vals := maskFilter mask k.vals }) }

/-- The retention predicate of `remove_outliers`, phrased as the spec
reads: a row is kept exactly when its cell in the target column holds a
value inside the inclusive interval `[q1 - n_std*iqr, q3 + n_std*iqr]`
(so a missing cell is dropped).  Proven equal to the code's boolean mask
in `remove_outliers_spec`. -/
def outlierKeep (c : Col) (n_std : ℚ) : Cell → Bool := fun v =>
  match v with
  | some x =>
    decide (quantileLinear (dropNA c.vals) 1 4 -
        n_std * (quantileLinear (dropNA c.vals) 3 4 - quantileLinear (dropNA c.vals) 1 4) ≤ x ∧
      x ≤ quantileLinear (dropNA c.vals) 3 4 +
        n_std * (quantileLinear (dropNA c.vals) 3 4 - quantileLinear (dropNA c.vals) 1 4))
  | none => false

/-- The default `required_cols` of `validate_metabolomics_data`. -/
def defaultRequiredCols : List String := ["shannon", "PD_whole_tree", "chao1"]

/-- `validate_metabolomics_data(df, required_cols)` (cleaning.py:74-116).
Raises on an empty frame; then on missing required columns (message
comma-joins the missing names, in required-list order); then on any
non-required column whose dtype is neither `float64` nor `int64`
(message comma-joins the offending names, in table order); else `True`. -/
def validate_metabolomics_data (df : Table) (required : Option (List String)) :
    Except Err Bool :=
  if df.emptyB then Except.error Err.emptyInput
  else
    let requiredCols := required.getD defaultRequiredCols
    let missing := requiredCols.filter (fun c => !(df.hasCol c))
    if !missing.isEmpty then Except.error (Err.missingColumns missing)
    else
      let nonNumeric :=
        (df.cols.filter (fun k =>
          !(decide (k.name ∈ requiredCols)) &&
          !(k.dtype == DType.float64 || k.dtype == DType.int64))).map Col.name
      if !nonNumeric.isEmpty then Except.error (Err.nonNumericData nonNumeric)
      else Except.ok true

/-- numpy `allclose` default absolute tolerance. -/
def npAtol : ℚ := 1 / 100000000

/-- numpy `allclose` default relative tolerance. -/
def npRtol : ℚ := 1 / 100000

/-- `np.allclose(sums, 1.0)` with the default tolerances:
`|s - 1| <= atol + rtol * |1|` for every entry. -/
def allcloseOne (sums : List ℚ) : Bool :=
  sums.all (fun s => decide (|s - 1| ≤ npAtol + npRtol * 1))

/-- Per-row sums of the given columns, skipping missing cells
(`df[cols].sum(axis=1)` with default `skipna=True`). -/
def rowSumsSkipNA (cols : List Col) (n : Nat) : List ℚ :=
  cols.foldl (fun acc c => List.zipWith (fun a v => a + Option.getD v 0) acc c.vals)
    (List.replicate n 0)

/-- The per-row sums over the "bacteria"-named columns of a table. -/
def bacteriaRowSums (df : Table) : List ℚ :=
  rowSumsSkipNA (df.cols.filter (fun c => isBacteriaCol c.name)) df.nrows

/-- The tail of `validate_microbiome_data` after the read-depth check
(cleaning.py:152-163): raises `NotNormalizedError` when some row's sum over
the "bacteria" columns is not 1 within `np.allclose` default tolerance,
else returns `True`. -/
def microbiomeNormCheck (df : Table) : Except Err Bool :=
  if !(allcloseOne (bacteriaRowSums df)) then Except.error Err.notNormalized
  else Except.ok true

/-- `validate_microbiome_data(df, min_reads)` (cleaning.py:119-163).
Source default: `min_reads=30000`.  Raises on an empty frame; then when no
column name contains "bacteria" case-insensitively (a `MissingColumnsError`
whose message names no columns); then, if a `total_reads` column is present
and some rows fall below `min_reads`, an `InsufficientDepthError` carrying
those rows' identifiers in table order; then the normalization check
(`microbiomeNormCheck`). -/
def validate_microbiome_data (df : Table) (min_reads : ℚ) : Except Err Bool :=
  if df.emptyB then Except.error Err.emptyInput
  else if !(df.cols.any (fun c => isBacteriaCol c.name)) then
    Except.error (Err.missingColumns [])
  else
    match df.getCol ("total_reads") with
    | some c =>
      let lowReads := maskFilter (c.vals.map (fun v => cellLt v min_reads)) df.index
      if !lowReads.isEmpty then Except.error (Err.insufficientDepth lowReads)
      else microbiomeNormCheck df
    | none => microbiomeNormCheck df

/-! ### scaling.py

`StandardScaler` (an external collaborator, per the spec a "generic
standardization-transform collaborator") fits, per column, the sample mean
and the population standard deviation (the square root of the population
variance; a zero standard deviation is replaced by 1, sklearn's
`_handle_zeros_in_scale`), and transforms each value to `(x - mean)/scale`.
The square root on rationals is not rational, so the collaborator's square
root is passed in as a function argument `sqrtF`; theorems about scaling
hypothesise `sqrtF` to be correct (positive square root) at the points
where it is used.  sklearn rejects missing values (`NaN`); the embedding
totalises by fitting on the present values and mapping missing cells to
missing, and theorems about scaled columns assume no missing values. -/

/-- Sample mean of a list (0 for the empty list, where pandas yields NaN —
never relied upon). -/
def listMean (xs : List ℚ) : ℚ := xs.sum / xs.length

/-- Population variance (`ddof=0`) of a list. -/
def popVar (xs : List ℚ) : ℚ :=
  ((xs.map (fun x => (x - listMean xs) ^ 2)).sum) / xs.length

/-- sklearn's scale: the square root of the population variance, with a
zero replaced by 1 (`_handle_zeros_in_scale`). -/
def stdScale (sqrtF : ℚ → ℚ) (xs : List ℚ) : ℚ :=
  if popVar xs = 0 then 1 else sqrtF (popVar xs)

/-- `StandardScaler.fit_transform` on one column: subtract the fitted mean,
divide by the fitted scale.  The output dtype is `float64`. -/
def standardizeCol (sqrtF : ℚ → ℚ) (c : Col) : Col :=
  let xs := dropNA c.vals
  let m := listMean xs
  let s := stdScale sqrtF xs
  { name := c.name, dtype := DType.float64,
    vals := c.vals.map (Option.map (fun x => (x - m) / s)) }

/-- The common body of the three `scale_*` functions (scaling.py:34-43,
72-79, 108-115): columns not in the exclusion list are standardized in
place, the others are untouched.  The `if cols_to_scale:` guard of the
source is the emptiness test on the feature columns. -/
def scaleFeatureCols (sqrtF : ℚ → ℚ) (excludeCols : List String) (t : Table) : Table :=
  if (t.cols.filter (fun c => !(decide (c.name ∈ excludeCols)))).isEmpty then t
  else
    { t with
        cols := t.cols.map (fun c =>
          if decide (c.name ∈ excludeCols) then c else standardizeCol sqrtF c) }

/-- Default `exclude_cols` of `scale_metabolomics` (scaling.py:27). -/
def metabolomicsExcludeCols : List String :=
  ["shannon", "PD_whole_tree", "chao1", "BMI", "Age", "sex"]

/-- Default `metadata_cols` of `scale_proteomics` (scaling.py:66). -/
def proteomicsMetadataCols : List String := ["shannon", "sex", "age"]

/-- Default `metadata_cols` of `scale_clinical_labs` (scaling.py:102). -/
def clinicalMetadataCols : List String := ["shannon"]

/-- `scale_metabolomics(data, exclude_cols, copy=True)` value semantics
(scaling.py:7-43): the table value the function produces.  The `copy`
aliasing contract is modelled separately on the heap (`scaleHeap`). -/
def scale_metabolomics (sqrtF : ℚ → ℚ) (data : Table)
    (excludeCols : Option (List String)) : Table :=
  scaleFeatureCols sqrtF (excludeCols.getD metabolomicsExcludeCols) data

/-- `scale_proteomics(data, metadata_cols, copy=True)` value semantics
(scaling.py:46-79). -/
def scale_proteomics (sqrtF : ℚ → ℚ) (data : Table)
    (metadataCols : Option (List String)) : Table :=
  scaleFeatureCols sqrtF (metadataCols.getD proteomicsMetadataCols) data

/-- `scale_clinical_labs(data, metadata_cols, copy=True)` value semantics
(scaling.py:82-115). -/
def scale_clinical_labs (sqrtF : ℚ → ℚ) (data : Table)
    (metadataCols : Option (List String)) : Table :=
  scaleFeatureCols sqrtF (metadataCols.getD clinicalMetadataCols) data

/-! ### Heap model for the `copy` aliasing contract

Python variables hold references to heap objects.  A heap is a list of
tables; a reference is an index into it.  `data.copy()` allocates a fresh
cell; `data[cols] = ...` writes through the reference; `return data`
returns the reference. -/

abbrev Heap := List Table

/-- The body shared by the three `scale_*` functions, on the heap:
`if copy: data = data.copy()` rebinds `data` to a freshly allocated copy,
then the column assignment overwrites the referenced table with the scaled
value `f` of it, and the reference held by `data` is returned. -/
def scaleHeap (f : Table → Table) (h : Heap) (r : Nat) (copy : Bool) : Heap × Nat :=
  let dref := if copy then h.length else r
  let h1 := if copy then h ++ [h.getD r default] else h
  (h1.set dref (f (h1.getD dref default)), dref)

/-- `scale_metabolomics` on the heap, with its `copy` parameter. -/
def scale_metabolomics_heap (sqrtF : ℚ → ℚ) (excludeCols : Option (List String))
    (h : Heap) (r : Nat) (copy : Bool) : Heap × Nat :=
  scaleHeap (fun t => scale_metabolomics sqrtF t excludeCols) h r copy

/-- `scale_proteomics` on the heap, with its `copy` parameter. -/
def scale_proteomics_heap (sqrtF : ℚ → ℚ) (metadataCols : Option (List String))
    (h : Heap) (r : Nat) (copy : Bool) : Heap × Nat :=
  scaleHeap (fun t => scale_proteomics sqrtF t metadataCols) h r copy

/-- `scale_clinical_labs` on the heap, with its `copy` parameter. -/
def scale_clinical_labs_heap (sqrtF : ℚ → ℚ) (metadataCols : Option (List String))
    (h : Heap) (r : Nat) (copy : Bool) : Heap × Nat :=
  scaleHeap (fun t => scale_clinical_labs sqrtF t metadataCols) h r copy

/-! ### Merging (`DataFrame.merge` on the index) -/

/-- The two join policies `scale_and_combine_omics` passes to `merge`. -/
inductive Join
  | inner
  | outer
deriving DecidableEq

/-- The matched row-position pairs of an index merge.  For `inner`, every
pair of positions with equal keys (pandas index merges with duplicate keys
produce the cartesian product of matches), left-major.  For `outer`,
additionally the unmatched left positions and the unmatched right
positions (pandas additionally sorts the result keys lexicographically;
the claims under verification only concern the key sets, not their
order). -/
def matchPairs (lk rk : List Cell) (how : Join) : List (Option Nat × Option Nat) :=
  let inner := (List.range lk.length).flatMap (fun i =>
    (List.range rk.length).filterMap (fun j =>
      if rk.getD j none = lk.getD i none then some (some i, some j) else none))
  match how with
  | Join.inner => inner
  | Join.outer =>
    inner
    ++ ((List.range lk.length).filterMap (fun i =>
          if decide ((lk.getD i none) ∈ rk) then none else some (some i, none)))
    ++ ((List.range rk.length).filterMap (fun j =>
          if decide ((rk.getD j none) ∈ lk) then none else some (none, some j)))

/-- Cell lookup through an optional row position: an unmatched side
contributes a missing value. -/
def pickCell (vals : List Cell) : Option Nat → Cell
  | some i => vals.getD i none
  | none => none

/-- `left.merge(right, left_index=True, right_index=True, how=...)`
(scaling.py:155-160): rows are the matched position pairs, columns are the
left columns followed by the right columns, cells looked up through the
positions (missing on an unmatched side). -/
def mergeTables (l r : Table) (how : Join) : Table :=
  let pairs := matchPairs l.index r.index how
  { indexName := l.indexName
    indexDType := l.indexDType
    index := pairs.map (fun p =>
      match p.1 with
      | some i => l.index.getD i none
      | none => pickCell r.index p.2)
    cols :=
      (l.cols.map (fun c => { c with vals := pairs.map (fun p => pickCell c.vals p.1) }))
      ++ (r.cols.map (fun c => { c with vals := pairs.map (fun p => pickCell c.vals p.2) })) }

/-- `scale_and_combine_omics(metabolomics, proteomics=None, clinical=None,
join="inner")` value semantics (scaling.py:118-163): scale the
metabolomics table (defaults, `copy=True`), conditionally scale the
optional tables, then fold `merge` left to right over the collected list;
a single table is returned unmerged. -/
def scale_and_combine_omics (sqrtF : ℚ → ℚ) (metabolomics : Table)
    (proteomics : Option Table) (clinical : Option Table) (join : Join) : Table :=
  let scaledM := scale_metabolomics sqrtF metabolomics none
  let dfs := [scaledM]
  let dfs := match proteomics with
    | some p => dfs ++ [scale_proteomics sqrtF p none]
    | none => dfs
  let dfs := match clinical with
    | some c => dfs ++ [scale_clinical_labs sqrtF c none]
    | none => dfs
  match dfs with
  | [] => scaledM
  | d :: rest =>
    if rest.isEmpty then d
    else rest.foldl (fun acc next => mergeTables acc next join) d

/-- One merge step on the heap: `merge` returns a fresh table, modelled as
an allocation at the end of the heap. -/
def mergeFoldHeap (join : Join) (st : Heap × Nat) (rs : List Nat) : Heap × Nat :=
  rs.foldl (fun acc r2 =>
    (acc.1 ++ [mergeTables (acc.1.getD acc.2 default) (acc.1.getD r2 default) join],
     acc.1.length)) st

/-- `scale_and_combine_omics` on the heap (scaling.py:118-163): each
`scale_*` call uses the default `copy=True`; each `merge` allocates a new
table. -/
def scale_and_combine_heap (sqrtF : ℚ → ℚ) (h : Heap) (rm : Nat)
    (rp rc : Option Nat) (join : Join) : Heap × Nat :=
  let stM := scaleHeap (fun t => scale_metabolomics sqrtF t none) h rm true
  let stP : Heap × List Nat :=
    match rp with
    | none => (stM.1, [stM.2])
    | some r =>
      let s := scaleHeap (fun t => scale_proteomics sqrtF t none) stM.1 r true
      (s.1, [stM.2, s.2])
  let stC : Heap × List Nat :=
    match rc with
    | none => stP
    | some r =>
      let s := scaleHeap (fun t => scale_clinical_labs sqrtF t none) stP.1 r true
      (s.1, stP.2 ++ [s.2])
  match stC.2 with
  | [] => (stC.1, 0)
  | d :: rest =>
    if rest.isEmpty then (stC.1, d)
    else mergeFoldHeap join (stC.1, d) rest

/-- `standardize_index` on the heap: the source copies the frame
(`df.copy()`, cleaning.py:44) and mutates only the copy, so a successful
call allocates a fresh table and returns a reference to it; a failure
leaves the heap unchanged. -/
def standardize_index_heap (h : Heap) (r : Nat) (ic : String) (ty : DType) :
    Heap × Except Err Nat :=
  match standardize_index (h.getD r default) ic ty with
  | Except.error e => (h, Except.error e)
  | Except.ok t => (h ++ [t], Except.ok h.length)

/-! ### Concrete tables used as counterexamples and witnesses -/

/-- A table already keyed by `public_client_id` (as `set_index` leaves it:
the column is gone, the index carries its values), non-empty, unique keys. -/
def exKeyedTable : Table :=
  ⟨some ("public_client_id"), DType.int64, [some 1, some 2],
   [⟨"value", DType.float64, [some 10, some 20]⟩]⟩

/-- The `sample_data` fixture of the repository's tests:
`public_client_id` 1..3 and a `value` column. -/
def exSampleTable : Table :=
  ⟨none, DType.int64, [some 0, some 1, some 2],
   [⟨"public_client_id", DType.int64, [some 1, some 2, some 3]⟩,
    ⟨"value", DType.float64, [some 10, some 20, some 30]⟩]⟩

/-- `sample_data` with a duplicated id, as in the tests. -/
def exDupTable : Table :=
  ⟨none, DType.int64, [some 0, some 1, some 2],
   [⟨"public_client_id", DType.int64, [some 1, some 1, some 2]⟩,
    ⟨"value", DType.float64, [some 10, some 20, some 30]⟩]⟩

/-- The spec's outlier example: values `[1.0, 2.0, 100.0, 3.0, 2.5]`. -/
def exOutlierTable : Table :=
  ⟨none, DType.int64, [some 0, some 1, some 2, some 3, some 4],
   [⟨"value", DType.float64, [some 1, some 2, some 100, some 3, some (5/2)]⟩]⟩

/-- `exOutlierTable` after one outlier pass: the row with 100 removed. -/
def exOutlierOnce : Table :=
  ⟨none, DType.int64, [some 0, some 1, some 3, some 4],
   [⟨"value", DType.float64, [some 1, some 2, some 3, some (5/2)]⟩]⟩

/-- A table on which outlier removal is not idempotent: the first pass drops
1000000 (bounds `[-22.5, 30]`), after which the IQR collapses to 0 and a
second pass also drops 10. -/
def exIdemTable : Table :=
  ⟨none, DType.int64, [some 0, some 1, some 2, some 3, some 4, some 5],
   [⟨"value", DType.float64, [some 0, some 0, some 0, some 0, some 10, some 1000000]⟩]⟩

/-- `exIdemTable` after one outlier pass. -/
def exIdemOnce : Table :=
  ⟨none, DType.int64, [some 0, some 1, some 2, some 3, some 4],
   [⟨"value", DType.float64, [some 0, some 0, some 0, some 0, some 10]⟩]⟩

/-- `exIdemTable` after two outlier passes: strictly smaller again. -/
def exIdemTwice : Table :=
  ⟨none, DType.int64, [some 0, some 1, some 2, some 3],
   [⟨"value", DType.float64, [some 0, some 0, some 0, some 0]⟩]⟩

/-- A table with rows but no columns: pandas `df.empty` is true for it, so
`validate_metabolomics_data` raises `EmptyInputError` even though the table
has a nonzero number of rows. -/
def exRowsNoCols : Table := ⟨none, DType.obj, [some 1], []⟩

/-- The spec's microbiome example: two bacteria columns summing to 1 per
row, `total_reads` at and above the threshold. -/
def exMicroTable : Table :=
  ⟨none, DType.int64, [some 0, some 1],
   [⟨"bacteria_1", DType.float64, [some (1/2), some (3/5)]⟩,
    ⟨"bacteria_2", DType.float64, [some (1/2), some (2/5)]⟩,
    ⟨"total_reads", DType.int64, [some 30000, some 31000]⟩]⟩

/-- The microbiome example with the first row's reads below threshold. -/
def exMicroLowTable : Table :=
  ⟨none, DType.int64, [some 0, some 1],
   [⟨"bacteria_1", DType.float64, [some (1/2), some (3/5)]⟩,
    ⟨"bacteria_2", DType.float64, [some (1/2), some (2/5)]⟩,
    ⟨"total_reads", DType.int64, [some 29000, some 31000]⟩]⟩

/-- The tests' valid metabolomics table: the three diversity indices and
one metabolite column, all `float64`. -/
def exMetabTable : Table :=
  ⟨none, DType.int64, [some 0, some 1],
   [⟨"shannon", DType.float64, [some 1, some 2]⟩,
    ⟨"PD_whole_tree", DType.float64, [some (1/2), some (3/5)]⟩,
    ⟨"chao1", DType.float64, [some 100, some 120]⟩,
    ⟨"metabolite1", DType.float64, [some (1/10), some (1/5)]⟩]⟩

/-- A metabolomics table with none of the required columns. -/
def exMetabInvalid : Table :=
  ⟨none, DType.int64, [some 0], [⟨"invalid", DType.float64, [some 1]⟩]⟩

/-- A metabolomics table with the required columns and one non-numeric
(`object`-dtype) metabolite column. -/
def exMetabNonNum : Table :=
  ⟨none, DType.int64, [some 0],
   [⟨"shannon", DType.float64, [some 1]⟩,
    ⟨"PD_whole_tree", DType.float64, [some (1/2)]⟩,
    ⟨"chao1", DType.float64, [some 100]⟩,
    ⟨"notes", DType.obj, [some 0]⟩]⟩

/-- A one-feature-column table whose column `met1` has mean 1 and
population variance 1 (values 0 and 2), for scaling witnesses. -/
def exScaleTable : Table :=
  ⟨none, DType.int64, [some 0, some 1],
   [⟨"met1", DType.float64, [some 0, some 2]⟩,
    ⟨"shannon", DType.float64, [some 5, some 7]⟩]⟩

/-- What C8 asserts of one column under a scaling function `F` with
metadata (exclusion) list `E` and square-root collaborator `sqrtF`: an
excluded column comes back unchanged; a feature column, with no missing
value, nonzero population variance, and `sqrtF` a genuine square root at
that variance, keeps its name and has sample mean (exactly, hence within
`1e-10` of) 0 and population variance exactly 1 — so any nonnegative
square root of it (the population standard deviation) is within `1e-10`
of 1. -/
def ScaledColSpec (sqrtF : ℚ → ℚ) (F : Table → Table) (E : List String)
    (t : Table) (j : Nat) : Prop :=
  ((t.cols.getD j default).name ∈ E →
    (F t).cols.getD j default = t.cols.getD j default) ∧
  ((t.cols.getD j default).name ∉ E →
   (∀ v ∈ (t.cols.getD j default).vals, v.isSome = true) →
   popVar (dropNA (t.cols.getD j default).vals) ≠ 0 →
   sqrtF (popVar (dropNA (t.cols.getD j default).vals)) ^ 2 =
     popVar (dropNA (t.cols.getD j default).vals) →
   ((F t).cols.getD j default).name = (t.cols.getD j default).name ∧
   listMean (dropNA ((F t).cols.getD j default).vals) = 0 ∧
   |listMean (dropNA ((F t).cols.getD j default).vals)| ≤ 1 / 10 ^ 10 ∧
   popVar (dropNA ((F t).cols.getD j default).vals) = 1 ∧
   (∀ s : ℚ, 0 ≤ s → s ^ 2 = popVar (dropNA ((F t).cols.getD j default).vals) →
      |s - 1| ≤ 1 / 10 ^ 10))

/-! ## Lemmas -/

theorem maskFilter_sublist {α : Type} (m : List Bool) (xs : List α) :
    (maskFilter m xs).Sublist xs := by
  induction xs generalizing m with
  | nil => cases m <;> simp [maskFilter]
  | cons x t ih =>
    cases m with
    | nil => simp [maskFilter]
    | cons b ms =>
      cases b with
      | true => simpa [maskFilter] using (ih ms).cons₂ x
      | false => simpa [maskFilter] using (ih ms).cons x

theorem maskFilter_eq_nil_iff {α : Type} (m : List Bool) (xs : List α)
    (h : m.length = xs.length) : maskFilter m xs = [] ↔ ∀ b ∈ m, b = false := by
  induction xs generalizing m with
  | nil =>
    cases m with
    | nil => simp [maskFilter]
    | cons b ms => simp at h
  | cons x t ih =>
    cases m with
    | nil => simp at h
    | cons b ms =>
      cases b with
      | true => simp [maskFilter]
      | false =>
        have hstep : maskFilter (false :: ms) (x :: t) = maskFilter ms t := by
          simp [maskFilter]
        rw [hstep, ih ms (by simpa using h), List.forall_mem_cons]
        simp

theorem maskFilter_all_true {α : Type} (m : List Bool) (xs : List α)
    (h : m.length = xs.length) (hall : ∀ b ∈ m, b = true) : maskFilter m xs = xs := by
  induction xs generalizing m with
  | nil => cases m <;> simp [maskFilter]
  | cons x t ih =>
    cases m with
    | nil => simp at h
    | cons b ms =>
      have hb : b = true := hall b (by simp)
      subst hb
      simp only [maskFilter, if_pos]
      rw [ih ms (by simpa using h) (fun b hb => hall b (by simp [hb]))]

theorem getCol_eq_some {t : Table} {s : String} {c : Col}
    (h : t.getCol s = some c) : c ∈ t.cols ∧ c.name = s := by
  unfold Table.getCol at h
  refine ⟨List.mem_of_find?_eq_some h, ?_⟩
  have := List.find?_some h
  simpa using this

theorem find?_name_eq_some_iff (cols : List Col) (s : String) (c : Col)
    (hnd : (cols.map Col.name).Nodup) :
    cols.find? (fun k => k.name == s) = some c ↔ c ∈ cols ∧ c.name = s := by
  induction cols with
  | nil => simp
  | cons a t ih =>
    rw [List.map_cons, List.nodup_cons] at hnd
    by_cases ha : a.name = s
    · have hbeq : (a.name == s) = true := by simpa using ha
      simp only [List.find?_cons, hbeq]
      constructor
      · intro hh
        have hac : a = c := by injection hh
        subst hac
        exact ⟨List.mem_cons_self a t, ha⟩
      · rintro ⟨hmem, hname⟩
        cases List.mem_cons.mp hmem with
        | inl hh => rw [hh]
        | inr hh =>
          exact absurd (by rw [ha, ← hname]; exact List.mem_map_of_mem Col.name hh) hnd.1
    · have hbeq : (a.name == s) = false := by simpa using ha
      simp only [List.find?_cons, hbeq]
      rw [ih hnd.2]
      constructor
      · rintro ⟨hmem, hname⟩
        exact ⟨List.mem_cons_of_mem a hmem, hname⟩
      · rintro ⟨hmem, hname⟩
        cases List.mem_cons.mp hmem with
        | inl hh => exact absurd (hh ▸ hname) ha
        | inr hh => exact ⟨hh, hname⟩

theorem getCol_eq_some_iff {t : Table} {s : String} {c : Col}
    (hnd : t.colNames.Nodup) : t.getCol s = some c ↔ c ∈ t.cols ∧ c.name = s :=
  find?_name_eq_some_iff t.cols s c hnd

theorem hasCol_of_getCol {t : Table} {s : String} {c : Col}
    (h : t.getCol s = some c) : t.hasCol s = true := by
  obtain ⟨hmem, hname⟩ := getCol_eq_some h
  unfold Table.hasCol Table.colNames
  simp only [decide_eq_true_eq]
  exact hname ▸ List.mem_map_of_mem Col.name hmem

theorem getCol_isSome_of_hasCol {t : Table} {s : String}
    (h : t.hasCol s = true) : ∃ c, t.getCol s = some c := by
  unfold Table.hasCol Table.colNames at h
  simp only [decide_eq_true_eq, List.mem_map] at h
  obtain ⟨c, hc, hname⟩ := h
  unfold Table.getCol
  have hs : (t.cols.find? (fun c => c.name == s)).isSome = true := by
    apply List.find?_isSome.mpr
    exact ⟨c, hc, by simp [hname]⟩
  obtain ⟨c2, hc2⟩ := Option.isSome_iff_exists.mp hs
  exact ⟨c2, hc2⟩

theorem hasDup_eq_false_iff (l : List Cell) : hasDup l = false ↔ l.Nodup := by
  induction l with
  | nil => simp [hasDup]
  | cons a t ih =>
    simp only [hasDup, Bool.or_eq_false_iff, decide_eq_false_iff_not, List.nodup_cons, ih]

theorem map_name_filter_ne (cols : List Col) (ic : String) :
    (cols.filter (fun k => k.name ≠ ic)).map Col.name =
      (cols.map Col.name).filter (fun s => s ≠ ic) := by
  rw [List.filter_map]
  rfl

/-- The successful path of `standardize_index`: on a non-empty frame whose
index column exists and has no duplicates, the call returns a table keyed
by that column, with the requested index dtype, the same row count, and
the same columns apart from the index column. -/
theorem standardize_index_ok_core (df : Table) (ic : String) (ty : DType) (c : Col)
    (hwf : df.WF) (hne : df.emptyB = false) (hc : df.getCol ic = some c)
    (hnd : hasDup c.vals = false) :
    ∃ out, standardize_index df ic ty = Except.ok out ∧
      out.indexName = some ic ∧ out.indexDType = ty ∧ out.nrows = df.nrows ∧
      out.colNames.filter (fun s => s ≠ ic) = df.colNames.filter (fun s => s ≠ ic) := by
  obtain ⟨hmem, hname⟩ := getCol_eq_some hc
  have hcol : df.hasCol ic = true := hasCol_of_getCol hc
  by_cases hidx : df.indexName = some ic
  · refine ⟨{ df with indexDType := ty }, ?_, hidx, rfl, rfl, rfl⟩
    unfold standardize_index
    rw [hne]
    simp [hc, hnd, hidx, Bool.false_eq_true]
  · refine ⟨{ indexName := some ic, indexDType := ty, index := c.vals,
              cols := df.cols.filter (fun k => k.name ≠ ic) }, ?_, rfl, rfl, ?_, ?_⟩
    · unfold standardize_index
      rw [hne]
      simp [hc, hnd, hidx, hcol, Bool.false_eq_true]
    · show c.vals.length = df.index.length
      exact hwf c hmem
    · show ((df.cols.filter (fun k => k.name ≠ ic)).map Col.name).filter (fun s => s ≠ ic) = _
      rw [map_name_filter_ne, List.filter_filter]
      simp [Table.colNames]

/-- On a non-empty constant sample, every linearly interpolated quantile
with `num/den ≤ 1` is that constant. -/
theorem quantileLinear_const (xs : List ℚ) (a : ℚ) (num den : Nat)
    (hne : xs ≠ []) (hall : ∀ x ∈ xs, x = a) (hnum : num ≤ den) (hden : 0 < den) :
    quantileLinear xs num den = a := by
  have hperm := List.perm_insertionSort (fun a b => a ≤ b) xs
  have hsall : ∀ x ∈ sortQ xs, x = a := fun x hx => hall x (hperm.mem_iff.mp hx)
  have hslen : (sortQ xs).length = xs.length := hperm.length_eq
  have hsnz : 0 < (sortQ xs).length := by
    rw [hslen]
    exact List.length_pos.mpr hne
  have hsne : (sortQ xs).isEmpty = false := by
    rw [List.isEmpty_eq_false]
    intro h0
    rw [h0] at hsnz
    simp at hsnz
  have hlo : ((sortQ xs).length - 1) * num / den < (sortQ xs).length := by
    have h1 : ((sortQ xs).length - 1) * num ≤ ((sortQ xs).length - 1) * den :=
      Nat.mul_le_mul_left _ hnum
    have h2 : ((sortQ xs).length - 1) * num / den ≤ ((sortQ xs).length - 1) * den / den :=
      Nat.div_le_div_right h1
    rw [Nat.mul_div_cancel _ hden] at h2
    omega
  have hhi : (if (((sortQ xs).length - 1) * num % den == 0)
      then ((sortQ xs).length - 1) * num / den
      else ((sortQ xs).length - 1) * num / den + 1) < (sortQ xs).length := by
    by_cases hrem : ((sortQ xs).length - 1) * num % den = 0
    · rw [if_pos (by simpa using hrem)]
      exact hlo
    · rw [if_neg (by simpa using hrem)]
      have hdm := Nat.div_add_mod (((sortQ xs).length - 1) * num) den
      have h1 : ((sortQ xs).length - 1) * num ≤ ((sortQ xs).length - 1) * den :=
        Nat.mul_le_mul_left _ hnum
      have hrem2 : ((sortQ xs).length - 1) * num % den < den := Nat.mod_lt _ hden
      by_contra hcon
      push_neg at hcon
      have : ((sortQ xs).length - 1) * num / den ≥ (sortQ xs).length - 1 := by omega
      nlinarith [hdm, h1, hrem2, Nat.pos_of_ne_zero hrem]
  simp only [quantileLinear, hsne, Bool.false_eq_true, if_false]
  have ha1 : (sortQ xs).getD (((sortQ xs).length - 1) * num / den) 0 = a := by
    rw [List.getD_eq_getElem _ _ hlo]
    exact hsall _ (List.getElem_mem hlo)
  have ha2 : (sortQ xs).getD (if (((sortQ xs).length - 1) * num % den == 0)
      then ((sortQ xs).length - 1) * num / den
      else ((sortQ xs).length - 1) * num / den + 1) 0 = a := by
    rw [List.getD_eq_getElem _ _ hhi]
    exact hsall _ (List.getElem_mem hhi)
  rw [ha1, ha2]
  ring

/-- The row mask of `remove_outliers`, written as the claim reads it: a row
is kept exactly when its cell holds a value inside the inclusive bounds. -/
theorem cellGe_and_cellLe (v : Cell) (lo up : ℚ) :
    (cellGe v lo && cellLe v up) =
      (match v with
       | some x => decide (lo ≤ x ∧ x ≤ up)
       | none => false) := by
  cases v with
  | none => rfl
  | some x => simp [cellGe, cellLe, Bool.decide_and]

/-- The code's boolean mask in `remove_outliers` coincides with the
claim-level retention predicate `outlierKeep`. -/
theorem outlierKeep_eq (c : Col) (n_std : ℚ) (v : Cell) :
    (cellGe v (quantileLinear (dropNA c.vals) 1 4 -
        n_std * (quantileLinear (dropNA c.vals) 3 4 - quantileLinear (dropNA c.vals) 1 4)) &&
     cellLe v (quantileLinear (dropNA c.vals) 3 4 +
        n_std * (quantileLinear (dropNA c.vals) 3 4 - quantileLinear (dropNA c.vals) 1 4))) =
    outlierKeep c n_std v := by
  cases v with
  | none => rfl
  | some x => simp [cellGe, cellLe, outlierKeep, Bool.decide_and]

/-- Evaluation: one outlier pass on the spec's example table. -/
theorem exOutlier_eval1 :
    remove_outliers exOutlierTable ("value") 3 = Except.ok exOutlierOnce := by
  norm_num [remove_outliers, exOutlierTable, exOutlierOnce, Table.getCol, List.find?,
    quantileLinear, sortQ, List.insertionSort, List.orderedInsert, dropNA, List.filterMap,
    cellGe, cellLe, maskFilter]

/-- Evaluation: the second pass on the spec's example removes nothing. -/
theorem exOutlier_eval2 :
    remove_outliers exOutlierOnce ("value") 3 = Except.ok exOutlierOnce := by
  norm_num [remove_outliers, exOutlierOnce, Table.getCol, List.find?,
    quantileLinear, sortQ, List.insertionSort, List.orderedInsert, dropNA, List.filterMap,
    cellGe, cellLe, maskFilter]

/-- Evaluation: one outlier pass on the non-idempotence table drops only
the extreme value 1000000. -/
theorem exIdem_eval1 :
    remove_outliers exIdemTable ("value") 3 = Except.ok exIdemOnce := by
  norm_num [remove_outliers, exIdemTable, exIdemOnce, Table.getCol, List.find?,
    quantileLinear, sortQ, List.insertionSort, List.orderedInsert, dropNA, List.filterMap,
    cellGe, cellLe, maskFilter]

/-- Evaluation: the second pass also drops the value 10 (the IQR of the
once-filtered column collapses to 0). -/
theorem exIdem_eval2 :
    remove_outliers exIdemOnce ("value") 3 = Except.ok exIdemTwice := by
  norm_num [remove_outliers, exIdemOnce, exIdemTwice, Table.getCol, List.find?,
    quantileLinear, sortQ, List.insertionSort, List.orderedInsert, dropNA, List.filterMap,
    cellGe, cellLe, maskFilter]

/-! ## Claims -/

/-- C3 counterexample.  The claim includes tables "already keyed by that
column" among the inputs on which `standardize_index` succeeds, but on a
table keyed by `public_client_id` that (as `set_index` leaves it) no longer
carries that column, the lookup `df[index_col]` in the duplicate check
raises a pandas `KeyError` instead of succeeding: `exKeyedTable` is
non-empty, its key values are unique, it is keyed by the index column, and
the call fails. -/
theorem standardize_index_keyed_counterexample :
    exKeyedTable.emptyB = false ∧ exKeyedTable.index.Nodup ∧
      exKeyedTable.indexName = some ("public_client_id") ∧
      standardize_index exKeyedTable ("public_client_id") DType.float64 =
        Except.error (Err.keyError ("public_client_id")) := by
  refine ⟨by decide, by decide, by decide, ?_⟩
  simp [standardize_index, exKeyedTable, Table.emptyB, Table.getCol, List.find?]

/-- C3 (amended): for every non-empty table that still carries the chosen
index column among its columns, with no duplicate values in that column,
`standardize_index` succeeds; the result is keyed by the index column, its
index dtype is the requested one, its row count is unchanged, and its
column set apart from the index column is unchanged; on the heap, the call
leaves every pre-existing table (in particular the caller's) unchanged and
returns a reference to a fresh table.  (A table already keyed by the
column but no longer carrying it as a column instead fails with a
`KeyError`, see the counterexample.) -/
theorem standardize_index_success (df : Table) (ic : String) (ty : DType) (c : Col)
    (hwf : df.WF) (hne : df.emptyB = false) (hc : df.getCol ic = some c)
    (hnd : c.vals.Nodup) :
    (∃ out, standardize_index df ic ty = Except.ok out ∧
       out.indexName = some ic ∧ out.indexDType = ty ∧ out.nrows = df.nrows ∧
       out.colNames.filter (fun s => s ≠ ic) = df.colNames.filter (fun s => s ≠ ic)) ∧
    (∀ (h : Heap) (r : Nat), r < h.length → h.getD r default = df →
       (∀ i, i < h.length →
          (standardize_index_heap h r ic ty).1.getD i default = h.getD i default) ∧
       (standardize_index_heap h r ic ty).2 = Except.ok h.length ∧ h.length ≠ r) := by
  have hcore := standardize_index_ok_core df ic ty c hwf hne hc
    ((hasDup_eq_false_iff c.vals).mpr hnd)
  refine ⟨hcore, ?_⟩
  intro h r hr hdf
  obtain ⟨out, hout, -⟩ := hcore
  constructor
  · intro i hi
    unfold standardize_index_heap
    rw [hdf, hout]
    simp only
    rw [List.getD_eq_getElem?_getD, List.getD_eq_getElem?_getD,
      List.getElem?_append_left hi]
  · constructor
    · unfold standardize_index_heap
      rw [hdf, hout]
    · exact Nat.ne_of_gt hr

/-- C3 witness: the tests' `sample_data` table satisfies the hypotheses,
and the theorem yields a successful re-keying with a `float64` index. -/
theorem standardize_index_success_witness :
    ∃ out, standardize_index exSampleTable ("public_client_id") DType.float64 =
        Except.ok out ∧ out.indexName = some ("public_client_id") ∧
        out.indexDType = DType.float64 ∧ out.nrows = exSampleTable.nrows ∧
        out.colNames.filter (fun s => s ≠ ("public_client_id")) =
          exSampleTable.colNames.filter (fun s => s ≠ ("public_client_id")) :=
  (standardize_index_success exSampleTable ("public_client_id") DType.float64
    ⟨"public_client_id", DType.int64, [some 1, some 2, some 3]⟩
    (by decide) (by decide) (by decide) (by decide)).1

/-- C4: `standardize_index` fails with `EmptyInputError` on every zero-row
table; fails with `DuplicateKeyError` on every well-formed table whose
index column exists and contains a repeated value, whatever the other
columns hold; and no failure occurs on valid inputs (non-empty, index
column present, no duplicates). -/
theorem standardize_index_errors (df : Table) (ic : String) (ty : DType) :
    (df.nrows = 0 → standardize_index df ic ty = Except.error Err.emptyInput) ∧
    (∀ c, df.WF → df.getCol ic = some c → ¬ c.vals.Nodup →
       standardize_index df ic ty = Except.error Err.duplicateKey) ∧
    (∀ c, df.emptyB = false → df.getCol ic = some c → c.vals.Nodup →
       ∃ out, standardize_index df ic ty = Except.ok out) := by
  refine ⟨?_, ?_, ?_⟩
  · intro h0
    have : df.emptyB = true := by
      unfold Table.emptyB
      unfold Table.nrows at h0
      simp [List.isEmpty_iff, List.length_eq_zero.mp h0]
    unfold standardize_index
    rw [this]
    simp
  · intro c hwf hc hdup
    obtain ⟨hmem, -⟩ := getCol_eq_some hc
    have hdupb : hasDup c.vals = true := by
      cases hh : hasDup c.vals with
      | true => rfl
      | false => exact absurd ((hasDup_eq_false_iff c.vals).mp hh) hdup
    have hlen2 : 1 ≤ c.vals.length := by
      rcases hv : c.vals with _ | ⟨a, tl⟩
      · rw [hv] at hdup
        exact absurd List.nodup_nil hdup
      · simp
    have hne : df.emptyB = false := by
      unfold Table.emptyB
      have hidx : df.index.length ≠ 0 := by
        rw [← hwf c hmem]
        omega
      have hcols : df.cols ≠ [] := List.ne_nil_of_mem hmem
      rw [Bool.or_eq_false_iff, List.isEmpty_eq_false, List.isEmpty_eq_false]
      exact ⟨fun hnil => hidx (by rw [hnil]; rfl), hcols⟩
    unfold standardize_index
    rw [hne]
    simp only [Bool.false_eq_true, if_false, hc, hdupb]
    simp
  · intro c hne hc hnd
    have hdupb : hasDup c.vals = false := (hasDup_eq_false_iff c.vals).mpr hnd
    unfold standardize_index
    rw [hne]
    simp only [Bool.false_eq_true, if_false, hc, hdupb]
    exact ⟨_, rfl⟩

/-- C4 witness: on the tests' duplicated-id table, the theorem yields the
`DuplicateKeyError`; on the zero-row table it yields `EmptyInputError`. -/
theorem standardize_index_errors_witness :
    standardize_index exDupTable ("public_client_id") DType.float64 =
        Except.error Err.duplicateKey ∧
      standardize_index (Table.mk none DType.obj [] []) ("public_client_id")
        DType.float64 = Except.error Err.emptyInput := by
  constructor
  · exact (standardize_index_errors exDupTable ("public_client_id") DType.float64).2.1
      ⟨"public_client_id", DType.int64, [some 1, some 1, some 2]⟩
      (by decide) (by decide) (by decide)
  · exact (standardize_index_errors (Table.mk none DType.obj [] [])
      ("public_client_id") DType.float64).1 (by decide)

/-- C5: for every well-formed table containing the named column,
`remove_outliers` never fails and returns exactly the rows whose cell in
that column holds a value inside the inclusive interval
`[q1 - n_std*iqr, q3 + n_std*iqr]` (quartiles by linear interpolation,
rows with a missing cell dropped as in pandas); when every cell of the
column holds one and the same value the whole table is returned
unchanged; and on the spec's example `[1, 2, 100, 3, 2.5]` with
`n_std = 3` exactly the four rows without 100 remain. -/
theorem remove_outliers_spec (df : Table) (column : String) (n_std : ℚ) (c : Col)
    (hwf : df.WF) (hc : df.getCol column = some c) :
    (∃ out, remove_outliers df column n_std = Except.ok out ∧
      out.index = maskFilter (c.vals.map (outlierKeep c n_std)) df.index ∧
      out.cols = df.cols.map
        (fun k => { k with vals := maskFilter (c.vals.map (outlierKeep c n_std)) k.vals }) ∧
      out.indexName = df.indexName ∧ out.indexDType = df.indexDType) ∧
    ((∃ a, ∀ v ∈ c.vals, v = some a) → remove_outliers df column n_std = Except.ok df) ∧
    (remove_outliers exOutlierTable ("value") 3 = Except.ok exOutlierOnce ∧
      exOutlierOnce.nrows = 4 ∧
      (∀ k ∈ exOutlierOnce.cols, some 100 ∉ k.vals)) := by
  refine ⟨?_, ?_, exOutlier_eval1, by decide, by norm_num [exOutlierOnce]⟩
  · have heval : remove_outliers df column n_std = Except.ok
        { indexName := df.indexName, indexDType := df.indexDType,
          index := maskFilter (c.vals.map (outlierKeep c n_std)) df.index,
          cols := df.cols.map (fun k =>
            { k with vals := maskFilter (c.vals.map (outlierKeep c n_std)) k.vals }) } := by
      unfold remove_outliers
      rw [hc]
      simp only [outlierKeep_eq]
    exact ⟨_, heval, rfl, rfl, rfl, rfl⟩
  · rintro ⟨a, hall⟩
    have hmask : ∀ v ∈ c.vals,
        (cellGe v (quantileLinear (dropNA c.vals) 1 4 -
            n_std * (quantileLinear (dropNA c.vals) 3 4 - quantileLinear (dropNA c.vals) 1 4)) &&
         cellLe v (quantileLinear (dropNA c.vals) 3 4 +
            n_std * (quantileLinear (dropNA c.vals) 3 4 - quantileLinear (dropNA c.vals) 1 4))) = true := by
      intro v hv
      rcases hv2 : c.vals with _ | ⟨w, tl⟩
      · rw [hv2] at hv
        simp at hv
      · have hdropall : ∀ x ∈ dropNA c.vals, x = a := by
          intro x hx
          unfold dropNA at hx
          obtain ⟨v2, hv2m, hv2e⟩ := List.mem_filterMap.mp hx
          have := hall v2 hv2m
          rw [this] at hv2e
          simpa using hv2e.symm
        have hdropne : dropNA c.vals ≠ [] := by
          have : some a ∈ c.vals := by
            rw [hv2]
            have := hall w (by rw [hv2]; exact List.mem_cons_self w tl)
            rw [← this]
            exact List.mem_cons_self w tl
          intro h0
          have : a ∈ dropNA c.vals := by
            unfold dropNA
            exact List.mem_filterMap.mpr ⟨some a, this, rfl⟩
          rw [h0] at this
          simp at this
        have hq1 : quantileLinear (dropNA c.vals) 1 4 = a :=
          quantileLinear_const _ a 1 4 hdropne hdropall (by omega) (by omega)
        have hq3 : quantileLinear (dropNA c.vals) 3 4 = a :=
          quantileLinear_const _ a 3 4 hdropne hdropall (by omega) (by omega)
        have hva := hall v hv
        rw [hva, ← hv2, hq1, hq3]
        simp [cellGe, cellLe]
    unfold remove_outliers
    rw [hc]
    have hmeq : (c.vals.map (fun v =>
        (cellGe v (quantileLinear (dropNA c.vals) 1 4 -
            n_std * (quantileLinear (dropNA c.vals) 3 4 - quantileLinear (dropNA c.vals) 1 4)) &&
         cellLe v (quantileLinear (dropNA c.vals) 3 4 +
            n_std * (quantileLinear (dropNA c.vals) 3 4 - quantileLinear (dropNA c.vals) 1 4))))) =
        c.vals.map (fun _ => true) := by
      apply List.map_congr_left
      intro v hv
      exact hmask v hv
    simp only
    rw [hmeq]
    have hlen : (c.vals.map (fun _ => true)).length = c.vals.length := by simp
    have hclen := hwf c (getCol_eq_some hc).1
    have halltrue : ∀ b ∈ c.vals.map (fun _ => true), b = true := by simp
    have hidx : maskFilter (c.vals.map (fun _ => true)) df.index = df.index :=
      maskFilter_all_true _ _ (by rw [hlen, hclen]) halltrue
    have hcols : df.cols.map (fun k => { k with
        vals := maskFilter (c.vals.map (fun _ => true)) k.vals }) = df.cols := by
      have heach : ∀ k ∈ df.cols,
          ({ k with vals := maskFilter (c.vals.map (fun _ => true)) k.vals } : Col) = k := by
        intro k hk
        have hm : maskFilter (c.vals.map (fun _ => true)) k.vals = k.vals :=
          maskFilter_all_true _ _ (by rw [hlen, hclen, hwf k hk]) halltrue
        rw [hm]
      calc df.cols.map (fun k => { k with
              vals := maskFilter (c.vals.map (fun _ => true)) k.vals })
          = df.cols.map id := List.map_congr_left heach
        _ = df.cols := List.map_id _
    rw [hidx, hcols]

/-- C5 witness: the spec's example table satisfies the hypotheses, and the
theorem yields the 4-row result. -/
theorem remove_outliers_spec_witness :
    remove_outliers exOutlierTable ("value") 3 = Except.ok exOutlierOnce ∧
      exOutlierOnce.nrows = 4 := by
  have h := remove_outliers_spec exOutlierTable ("value") 3
      ⟨"value", DType.float64, [some 1, some 2, some 100, some 3, some (5/2)]⟩
      (by decide) rfl
  exact ⟨h.2.2.1, h.2.2.2.1⟩

/-- C6 counterexample: `remove_outliers` is not idempotent.  On the column
`[0, 0, 0, 0, 10, 1000000]` with the default `n_std = 3`, the first pass
keeps `[0, 0, 0, 0, 10]` (bounds `[-22.5, 30]`), but the second pass drops
the 10 as well, because the quartiles of the filtered column are both 0 and
the bounds collapse to `[0, 0]`.  So applying the function to its own
output differs from applying it once. -/
theorem remove_outliers_not_idempotent :
    (remove_outliers exIdemTable ("value") 3).bind
        (fun t => remove_outliers t ("value") 3) ≠
      remove_outliers exIdemTable ("value") 3 := by
  rw [exIdem_eval1]
  show remove_outliers exIdemOnce ("value") 3 ≠ Except.ok exIdemOnce
  rw [exIdem_eval2]
  intro hcon
  injection hcon with h2
  have hlen := congrArg (fun t : Table => t.index.length) h2
  simp [exIdemTwice, exIdemOnce] at hlen

/-- C6 (amended): a second application of `remove_outliers` with the same
column and `n_std` never adds rows — its index and each column's cells are
subsequences of the single application's — but it may remove further rows,
so it equals the single application exactly when its own pass drops
nothing (see the counterexample for a strict shrink). -/
theorem remove_outliers_twice_subseq (df : Table) (column : String) (n_std : ℚ)
    (t1 t2 : Table)
    (h1 : remove_outliers df column n_std = Except.ok t1)
    (h2 : remove_outliers t1 column n_std = Except.ok t2) :
    t2.index.Sublist t1.index ∧ t2.cols.length = t1.cols.length ∧
      ∀ (j : Nat) (hj : j < t2.cols.length) (hj2 : j < t1.cols.length),
        (t2.cols[j]).name = (t1.cols[j]).name ∧
        (t2.cols[j]).vals.Sublist (t1.cols[j]).vals := by
  unfold remove_outliers at h2
  cases hcc : t1.getCol column with
  | none =>
    rw [hcc] at h2
    cases h2
  | some c2 =>
    rw [hcc] at h2
    simp only at h2
    injection h2 with h2e
    subst h2e
    refine ⟨maskFilter_sublist _ _, by simp, ?_⟩
    intro j hj hj2
    constructor
    · simp only [List.getElem_map]
    · simp only [List.getElem_map]
      exact maskFilter_sublist _ _

/-- C6 witness: instantiating the amended theorem on the counterexample
table shows the twice-filtered rows are a subsequence of the once-filtered
rows. -/
theorem remove_outliers_twice_subseq_witness :
    exIdemTwice.index.Sublist exIdemOnce.index ∧
      exIdemTwice.cols.length = exIdemOnce.cols.length := by
  have h := remove_outliers_twice_subseq exIdemTable ("value") 3 exIdemOnce exIdemTwice
    exIdem_eval1 exIdem_eval2
  exact ⟨h.1, h.2.1⟩

/-- C2 counterexample.  The claim reads "fails with EmptyInputError when
the table has zero rows; otherwise, if any required column is absent,
MissingColumnsError" — but on a table with one row and zero columns
(pandas `df.empty` is true whenever either axis is empty), the code raises
`EmptyInputError`, not the `MissingColumnsError` the claim requires for a
table with a nonzero row count and all three required columns absent. -/
theorem validate_metabolomics_counterexample :
    exRowsNoCols.nrows = 1 ∧
      validate_metabolomics_data exRowsNoCols none = Except.error Err.emptyInput ∧
      validate_metabolomics_data exRowsNoCols none ≠
        Except.error (Err.missingColumns defaultRequiredCols) := by
  refine ⟨by decide, ?_, ?_⟩
  · norm_num [validate_metabolomics_data, exRowsNoCols, Table.emptyB]
  · norm_num [validate_metabolomics_data, exRowsNoCols, Table.emptyB]
    decide

/-- C2 (amended): `validate_metabolomics_data` (with the default required
columns) fails with `EmptyInputError` when the table is empty — zero rows
OR zero columns, pandas' `df.empty`; otherwise, if any of the three
diversity-index names is absent it fails with `MissingColumnsError`
carrying exactly the missing names in the canonical order of the required
list; otherwise, if any column outside the required set has a dtype that
is neither `float64` nor `int64` it fails with `NonNumericDataError`
carrying the offending names in table order; otherwise it returns true
(the validator reads the table and cannot mutate it). -/
theorem validate_metabolomics_spec (df : Table) :
    (df.emptyB = true → validate_metabolomics_data df none = Except.error Err.emptyInput) ∧
    (df.emptyB = false →
      ((∃ r ∈ defaultRequiredCols, df.hasCol r = false) →
         validate_metabolomics_data df none = Except.error
           (Err.missingColumns (defaultRequiredCols.filter (fun r => !(df.hasCol r))))) ∧
      ((∀ r ∈ defaultRequiredCols, df.hasCol r = true) →
        ((∃ c ∈ df.cols, c.name ∉ defaultRequiredCols ∧
            c.dtype ≠ DType.float64 ∧ c.dtype ≠ DType.int64) →
           validate_metabolomics_data df none = Except.error
             (Err.nonNumericData ((df.cols.filter (fun k =>
               !(decide (k.name ∈ defaultRequiredCols)) &&
               !(k.dtype == DType.float64 || k.dtype == DType.int64))).map Col.name))) ∧
        ((∀ c ∈ df.cols, c.name ∉ defaultRequiredCols →
            c.dtype = DType.float64 ∨ c.dtype = DType.int64) →
           validate_metabolomics_data df none = Except.ok true))) := by
  constructor
  · intro he
    unfold validate_metabolomics_data
    rw [he]
    simp
  · intro hne
    have hmissdef : ∀ (P : Prop), P → P := fun _ p => p
    refine ⟨?_, ?_⟩
    · rintro ⟨r, hr, hnc⟩
      have hmiss : (defaultRequiredCols.filter
          (fun c => !(Table.hasCol df c))).isEmpty = false := by
        rw [List.isEmpty_eq_false]
        intro h0
        have := List.filter_eq_nil_iff.mp h0 r hr
        rw [hnc] at this
        simp at this
      unfold validate_metabolomics_data
      rw [hne]
      simp only [Bool.false_eq_true, if_false, Option.getD_none]
      rw [hmiss]
      simp
    · intro hallreq
      have hmiss : (defaultRequiredCols.filter
          (fun c => !(Table.hasCol df c))).isEmpty = true := by
        rw [List.isEmpty_iff, List.filter_eq_nil_iff]
        intro r hr
        rw [hallreq r hr]
        simp
      refine ⟨?_, ?_⟩
      · rintro ⟨c, hc, hcr, hcf, hci⟩
        have hnnb : ((df.cols.filter (fun k =>
            !(decide (k.name ∈ defaultRequiredCols)) &&
            !(k.dtype == DType.float64 || k.dtype == DType.int64))).map Col.name).isEmpty
            = false := by
          rw [List.isEmpty_eq_false]
          intro h0
          rw [List.map_eq_nil_iff] at h0
          have := List.filter_eq_nil_iff.mp h0 c hc
          simp only [Bool.and_eq_true, Bool.not_eq_true', decide_eq_false_iff_not,
            Bool.or_eq_false_iff, beq_eq_false_iff_ne] at this
          exact this ⟨hcr, hcf, hci⟩
        unfold validate_metabolomics_data
        rw [hne]
        simp only [Bool.false_eq_true, if_false, Option.getD_none]
        rw [hmiss]
        simp only [Bool.not_true, Bool.false_eq_true, if_false]
        rw [hnnb]
        simp
      · intro hallnum
        have hnn : (df.cols.filter (fun k =>
            !(decide (k.name ∈ defaultRequiredCols)) &&
            !(k.dtype == DType.float64 || k.dtype == DType.int64))) = [] := by
          rw [List.filter_eq_nil_iff]
          intro k hk
          simp only [Bool.and_eq_true, Bool.not_eq_true', decide_eq_false_iff_not,
            Bool.or_eq_false_iff, beq_eq_false_iff_ne]
          rintro ⟨hkr, hkf, hki⟩
          rcases hallnum k hk hkr with h | h
          · exact hkf h
          · exact hki h
        unfold validate_metabolomics_data
        rw [hne]
        simp only [Bool.false_eq_true, if_false, Option.getD_none]
        rw [hmiss]
        simp only [Bool.not_true, Bool.false_eq_true, if_false]
        rw [hnn]
        simp

/-- C2 witness: the tests' valid table passes; a table with the required
columns and an `object`-dtype metabolite column fails with
`NonNumericDataError` naming it. -/
theorem validate_metabolomics_spec_witness :
    validate_metabolomics_data exMetabTable none = Except.ok true ∧
      validate_metabolomics_data exMetabNonNum none =
        Except.error (Err.nonNumericData ["notes"]) := by
  constructor
  · have h := (validate_metabolomics_spec exMetabTable).2 (by decide)
    have h2 := h.2 (by decide)
    have h3 := h2.2 (by decide)
    exact h3
  · have h := (validate_metabolomics_spec exMetabNonNum).2 (by decide)
    have h2 := h.2 (by decide)
    have h3 := h2.1 (by decide)
    rw [h3]
    decide

/-- With no missing value, the read-depth cell test `cell < m` is false
exactly when the held value is at least `m`. -/
theorem cellLt_eq_false_iff (v : Cell) (m : ℚ) (hv : v.isSome = true) :
    (cellLt v m = false ↔ m ≤ v.getD 0) := by
  cases v with
  | none => simp at hv
  | some x => simp [cellLt, Option.getD, not_lt]

/-- The depth-check mask of `validate_microbiome_data` selects no row
exactly when every `total_reads` value is at least the threshold. -/
theorem lowReads_empty_iff (c : Col) (idx : List Cell) (m : ℚ)
    (hlen : c.vals.length = idx.length) (hna : ∀ v ∈ c.vals, v.isSome = true) :
    maskFilter (c.vals.map (fun v => cellLt v m)) idx = [] ↔
      ∀ v ∈ c.vals, m ≤ v.getD 0 := by
  rw [maskFilter_eq_nil_iff _ _ (by simpa using hlen)]
  constructor
  · intro hall v hv
    have := hall (cellLt v m) (List.mem_map_of_mem _ hv)
    exact (cellLt_eq_false_iff v m (hna v hv)).mp this
  · intro hall b hb
    obtain ⟨v, hv, rfl⟩ := List.mem_map.mp hb
    exact (cellLt_eq_false_iff v m (hna v hv)).mpr (hall v hv)

/-- `validate_microbiome_data` when no column name contains "bacteria":
the `MissingColumnsError` with no names in its message. -/
theorem vmd_eval_nobact (df : Table) (minReads : ℚ) (hne : df.emptyB = false)
    (hbac : df.cols.any (fun c => isBacteriaCol c.name) = false) :
    validate_microbiome_data df minReads = Except.error (Err.missingColumns []) := by
  unfold validate_microbiome_data
  rw [hne, hbac]
  simp

/-- `validate_microbiome_data` on a non-empty frame with a `total_reads`
column, branches laid bare. -/
theorem vmd_eval_some (df : Table) (minReads : ℚ) (c : Col)
    (hne : df.emptyB = false) (hg : df.getCol ("total_reads") = some c) :
    validate_microbiome_data df minReads =
      (if (!(df.cols.any (fun k => isBacteriaCol k.name))) = true
       then Except.error (Err.missingColumns [])
       else if (!(maskFilter (c.vals.map (fun v => cellLt v minReads)) df.index).isEmpty) = true
       then Except.error (Err.insufficientDepth
              (maskFilter (c.vals.map (fun v => cellLt v minReads)) df.index))
       else microbiomeNormCheck df) := by
  unfold validate_microbiome_data
  rw [hne, hg]
  rfl

/-- `validate_microbiome_data` on a non-empty frame without a
`total_reads` column, branches laid bare. -/
theorem vmd_eval_none (df : Table) (minReads : ℚ)
    (hne : df.emptyB = false) (hg : df.getCol ("total_reads") = none) :
    validate_microbiome_data df minReads =
      (if (!(df.cols.any (fun k => isBacteriaCol k.name))) = true
       then Except.error (Err.missingColumns [])
       else microbiomeNormCheck df) := by
  unfold validate_microbiome_data
  rw [hne, hg]
  rfl

/-- The normalization tail succeeds exactly when every per-row bacteria
sum is within the numpy default tolerance of 1. -/
theorem vmd_norm_iff (df : Table) :
    microbiomeNormCheck df = Except.ok true ↔
      ∀ s ∈ bacteriaRowSums df, |s - 1| ≤ npAtol + npRtol * 1 := by
  unfold microbiomeNormCheck allcloseOne
  by_cases hall : (bacteriaRowSums df).all
      (fun s => decide (|s - 1| ≤ npAtol + npRtol * 1)) = true
  · rw [hall]
    simp only [Bool.not_true, Bool.false_eq_true, if_false]
    constructor
    · intro _ s hs
      simpa using List.all_eq_true.mp hall s hs
    · intro _
      trivial
  · rw [Bool.not_eq_true] at hall
    rw [hall]
    simp only [Bool.not_false, if_pos]
    constructor
    · intro hh
      cases hh
    · intro hh
      exfalso
      have htrue : ((bacteriaRowSums df).all
          (fun s => decide (|s - 1| ≤ npAtol + npRtol * 1))) = true :=
        List.all_eq_true.mpr (fun s hs => by simpa using hh s hs)
      rw [htrue] at hall
      cases hall

/-- The normalization tail fails with `NotNormalizedError` exactly
otherwise. -/
theorem vmd_norm_err (df : Table)
    (hh : ¬ ∀ s ∈ bacteriaRowSums df, |s - 1| ≤ npAtol + npRtol * 1) :
    microbiomeNormCheck df = Except.error Err.notNormalized := by
  have hcond : (bacteriaRowSums df).all
      (fun s => decide (|s - 1| ≤ npAtol + npRtol * 1)) = false := by
    cases hall : (bacteriaRowSums df).all
        (fun s => decide (|s - 1| ≤ npAtol + npRtol * 1)) with
    | false => rfl
    | true =>
      exact absurd (fun s hs => by simpa using List.all_eq_true.mp hall s hs) hh
  unfold microbiomeNormCheck allcloseOne
  rw [hcond]
  simp

/-- C1: on a non-empty, well-formed table with distinct column names and
no missing values, `validate_microbiome_data` returns true exactly when a
"bacteria"-named (case-insensitive substring) column exists, every
`total_reads` value — if such a column is present — is at least
`min_reads`, and every per-row sum over the "bacteria"-named columns is 1
within numpy `allclose` default tolerance (`|s-1| <= atol + rtol*|1|`).
The failures occur in the claimed order: no bacteria column gives the
`MissingColumnsError`; a below-threshold `total_reads` row, with the
bacteria check passing, gives the `InsufficientDepthError` carrying the
offending rows' identifiers in table order; a non-normalized row sum,
with both earlier checks passing, gives the `NotNormalizedError`. -/
theorem validate_microbiome_spec (df : Table) (minReads : ℚ)
    (hwf : df.WF) (hne : df.emptyB = false) (hnd : df.colNames.Nodup)
    (hna : df.NoNA) :
    (validate_microbiome_data df minReads = Except.ok true ↔
        ((∃ c ∈ df.cols, isBacteriaCol c.name = true) ∧
         (∀ c ∈ df.cols, c.name = "total_reads" → ∀ v ∈ c.vals, minReads ≤ v.getD 0) ∧
         (∀ s ∈ bacteriaRowSums df, |s - 1| ≤ npAtol + npRtol * 1))) ∧
    ((∀ c ∈ df.cols, isBacteriaCol c.name = false) →
       validate_microbiome_data df minReads = Except.error (Err.missingColumns [])) ∧
    (∀ c ∈ df.cols, c.name = "total_reads" →
       (∃ c2 ∈ df.cols, isBacteriaCol c2.name = true) →
       (∃ v ∈ c.vals, v.getD 0 < minReads) →
       validate_microbiome_data df minReads = Except.error
         (Err.insufficientDepth
           (maskFilter (c.vals.map (fun v => cellLt v minReads)) df.index))) ∧
    (((∃ c ∈ df.cols, isBacteriaCol c.name = true) ∧
      (∀ c ∈ df.cols, c.name = "total_reads" → ∀ v ∈ c.vals, minReads ≤ v.getD 0) ∧
      ¬(∀ s ∈ bacteriaRowSums df, |s - 1| ≤ npAtol + npRtol * 1)) →
      validate_microbiome_data df minReads = Except.error Err.notNormalized) := by
  have hinj := List.inj_on_of_nodup_map (f := Col.name) (l := df.cols) hnd
  refine ⟨?_, ?_, ?_, ?_⟩
  · -- the ok-iff
    cases hbac : df.cols.any (fun c => isBacteriaCol c.name) with
    | false =>
      rw [vmd_eval_nobact df minReads hne hbac]
      constructor
      · intro hh
        cases hh
      · rintro ⟨⟨c, hc, hcb⟩, -, -⟩
        have hcon : df.cols.any (fun c => isBacteriaCol c.name) = true := by
          simp only [List.any_eq_true]
          exact ⟨c, hc, hcb⟩
        rw [hbac] at hcon
        cases hcon
    | true =>
      have hbacex : ∃ c ∈ df.cols, isBacteriaCol c.name = true := by
        simp only [List.any_eq_true] at hbac
        obtain ⟨c, hc, hcb⟩ := hbac
        exact ⟨c, hc, hcb⟩
      cases hg : df.getCol ("total_reads") with
      | none =>
        rw [vmd_eval_none df minReads hne hg, hbac]
        simp only [Bool.not_true, Bool.false_eq_true, if_false]
        have hnotr : ∀ c ∈ df.cols, c.name ≠ "total_reads" := by
          intro c hc hcn
          have := List.find?_eq_none.mp hg c hc
          simp [hcn] at this
        rw [vmd_norm_iff]
        constructor
        · intro hh
          exact ⟨hbacex, fun c hc hcn => absurd hcn (hnotr c hc), hh⟩
        · rintro ⟨-, -, hC⟩
          exact hC
      | some c0 =>
        obtain ⟨hc0mem, hc0name⟩ := getCol_eq_some hg
        have hdep := lowReads_empty_iff c0 df.index minReads (hwf c0 hc0mem)
          (hna c0 hc0mem)
        have hBiff : (∀ c ∈ df.cols, c.name = "total_reads" →
            ∀ v ∈ c.vals, minReads ≤ v.getD 0) ↔
            (∀ v ∈ c0.vals, minReads ≤ v.getD 0) := by
          constructor
          · intro hh
            exact hh c0 hc0mem hc0name
          · intro hh c hc hcn
            have hceq : c = c0 := hinj hc hc0mem (by rw [hcn, hc0name])
            rw [hceq]
            exact hh
        rw [vmd_eval_some df minReads c0 hne hg, hbac]
        simp only [Bool.not_true, Bool.false_eq_true, if_false]
        by_cases hlow : maskFilter (c0.vals.map (fun v => cellLt v minReads)) df.index = []
        · rw [hlow]
          simp only [List.isEmpty_nil, Bool.not_true, Bool.false_eq_true, if_false]
          rw [vmd_norm_iff]
          constructor
          · intro hh
            exact ⟨hbacex, hBiff.mpr (hdep.mp hlow), hh⟩
          · rintro ⟨-, -, hC⟩
            exact hC
        · rw [if_pos (by
            simp only [Bool.not_eq_true', Bool.not_eq_false]
            rw [List.isEmpty_eq_false]
            exact hlow)]
          constructor
          · intro hh
            cases hh
          · rintro ⟨-, hB, -⟩
            exact absurd (hdep.mpr (hBiff.mp hB)) hlow
  · -- no bacteria column: MissingColumnsError
    intro hnob
    have hbac : df.cols.any (fun c => isBacteriaCol c.name) = false := by
      cases hh : df.cols.any (fun c => isBacteriaCol c.name) with
      | false => rfl
      | true =>
        simp only [List.any_eq_true] at hh
        obtain ⟨c, hc, hcb⟩ := hh
        rw [hnob c hc] at hcb
        cases hcb
    exact vmd_eval_nobact df minReads hne hbac
  · -- shallow reads: InsufficientDepthError
    intro c hc hcn hbacex hlt
    obtain ⟨v, hv, hvlt⟩ := hlt
    have hbac : df.cols.any (fun c => isBacteriaCol c.name) = true := by
      obtain ⟨c2, hc2, hc2b⟩ := hbacex
      simp only [List.any_eq_true]
      exact ⟨c2, hc2, hc2b⟩
    have hg : df.getCol ("total_reads") = some c :=
      (getCol_eq_some_iff hnd).mpr ⟨hc, hcn⟩
    rw [vmd_eval_some df minReads c hne hg, hbac]
    simp only [Bool.not_true, Bool.false_eq_true, if_false]
    have hlow : maskFilter (c.vals.map (fun v => cellLt v minReads)) df.index ≠ [] := by
      intro h0
      have := (lowReads_empty_iff c df.index minReads (hwf c hc) (hna c hc)).mp h0 v hv
      exact absurd hvlt (not_lt.mpr this)
    rw [if_pos (by
      simp only [Bool.not_eq_true', Bool.not_eq_false]
      rw [List.isEmpty_eq_false]
      exact hlow)]
  · -- not normalized: NotNormalizedError
    rintro ⟨hbacex, hB, hC⟩
    have hbac : df.cols.any (fun c => isBacteriaCol c.name) = true := by
      obtain ⟨c2, hc2, hc2b⟩ := hbacex
      simp only [List.any_eq_true]
      exact ⟨c2, hc2, hc2b⟩
    cases hg : df.getCol ("total_reads") with
    | none =>
      rw [vmd_eval_none df minReads hne hg, hbac]
      simp only [Bool.not_true, Bool.false_eq_true, if_false]
      exact vmd_norm_err df hC
    | some c0 =>
      obtain ⟨hc0mem, hc0name⟩ := getCol_eq_some hg
      have hlow : maskFilter (c0.vals.map (fun v => cellLt v minReads)) df.index = [] :=
        (lowReads_empty_iff c0 df.index minReads (hwf c0 hc0mem) (hna c0 hc0mem)).mpr
          (hB c0 hc0mem hc0name)
      rw [vmd_eval_some df minReads c0 hne hg, hbac]
      simp only [Bool.not_true, Bool.false_eq_true, if_false]
      rw [hlow]
      simp only [List.isEmpty_nil, Bool.not_true, Bool.false_eq_true, if_false]
      exact vmd_norm_err df hC

/-- C1 witness: the spec's example table — two bacteria columns summing to
1 per row, reads at/above 30000 — validates; lowering the first row's
reads to 29000 yields the `InsufficientDepthError` naming row 0. -/
theorem validate_microbiome_spec_witness :
    validate_microbiome_data exMicroTable 30000 = Except.ok true ∧
      validate_microbiome_data exMicroLowTable 30000 =
        Except.error (Err.insufficientDepth [some 0]) := by
  have hb1 : isBacteriaCol ("bacteria_1") = true := by decide
  have hb2 : isBacteriaCol ("bacteria_2") = true := by decide
  have hb3 : isBacteriaCol ("total_reads") = false := by decide
  constructor
  · apply (validate_microbiome_spec exMicroTable 30000
      (by decide) (by decide) (by decide) (by decide)).1.mpr
    refine ⟨⟨⟨"bacteria_1", DType.float64, [some (1/2), some (3/5)]⟩,
      by norm_num [exMicroTable], hb1⟩, ?_, ?_⟩
    · intro c hc hcn v hv
      have : c.vals = [some 30000, some 31000] := by
        have hcd : c = ⟨"bacteria_1", DType.float64, [some (1/2), some (3/5)]⟩ ∨
            c = ⟨"bacteria_2", DType.float64, [some (1/2), some (2/5)]⟩ ∨
            c = ⟨"total_reads", DType.int64, [some 30000, some 31000]⟩ := by
          have hcc := hc
          norm_num [exMicroTable] at hcc
          exact hcc
        rcases hcd with h | h | h
        · rw [h] at hcn
          simp at hcn
        · rw [h] at hcn
          simp at hcn
        · rw [h]
      rw [this] at hv
      rcases List.mem_cons.mp hv with h | h
      · rw [h]
        norm_num
      · rw [List.mem_singleton.mp h]
        norm_num
    · have hsums : bacteriaRowSums exMicroTable = [1, 1] := by
        norm_num [bacteriaRowSums, rowSumsSkipNA, exMicroTable, Table.nrows,
          List.replicate, hb1, hb2, hb3, List.filter, List.foldl, List.zipWith,
          Option.getD]
      intro s hs
      rw [hsums] at hs
      rcases List.mem_cons.mp hs with h | h
      · rw [h]
        norm_num [npAtol, npRtol]
      · rw [List.mem_singleton.mp h]
        norm_num [npAtol, npRtol]
  · have h := (validate_microbiome_spec exMicroLowTable 30000
      (by decide) (by decide) (by decide) (by decide)).2.2.1
      ⟨"total_reads", DType.int64, [some 29000, some 31000]⟩
      (by norm_num [exMicroLowTable]) rfl
      ⟨⟨"bacteria_1", DType.float64, [some (1/2), some (3/5)]⟩,
        by norm_num [exMicroLowTable], hb1⟩
      ⟨some 29000, by norm_num, by norm_num⟩
    rw [h]
    norm_num [exMicroLowTable, maskFilter, cellLt]

/-! ### Scaling lemmas -/

theorem sum_map_div (xs : List ℚ) (f : ℚ → ℚ) (s : ℚ) :
    (xs.map (fun x => f x / s)).sum = (xs.map f).sum / s := by
  induction xs with
  | nil => simp
  | cons a t ih => simp [ih, div_add_div_same]

theorem sum_map_sub_const (xs : List ℚ) (m : ℚ) :
    (xs.map (fun x => x - m)).sum = xs.sum - xs.length * m := by
  induction xs with
  | nil => simp
  | cons a t ih =>
    simp only [List.map_cons, List.sum_cons, ih, List.length_cons]
    push_cast
    ring

/-- The algebra of standardization: dividing the centred values by any
square root of the (nonzero) population variance yields mean 0 and
population variance 1. -/
theorem standardize_mean_var (xs : List ℚ) (s : ℚ)
    (hs2 : s ^ 2 = popVar xs) (hv : popVar xs ≠ 0) :
    listMean (xs.map (fun x => (x - listMean xs) / s)) = 0 ∧
      popVar (xs.map (fun x => (x - listMean xs) / s)) = 1 := by
  have hxne : xs ≠ [] := by
    intro h0
    rw [h0] at hv
    simp [popVar, listMean] at hv
  have hn : (xs.length : ℚ) ≠ 0 := by
    have : xs.length ≠ 0 := fun h0 => hxne (List.length_eq_zero.mp h0)
    exact_mod_cast this
  have hmean0 : listMean (xs.map (fun x => (x - listMean xs) / s)) = 0 := by
    have hsum : (xs.map (fun x => (x - listMean xs) / s)).sum = 0 := by
      rw [sum_map_div xs (fun x => x - listMean xs) s, sum_map_sub_const]
      have hz : xs.sum - (xs.length : ℚ) * listMean xs = 0 := by
        unfold listMean
        field_simp
      rw [hz, zero_div]
    show (xs.map (fun x => (x - listMean xs) / s)).sum /
        ((xs.map (fun x => (x - listMean xs) / s)).length : ℚ) = 0
    rw [hsum, zero_div]
  refine ⟨hmean0, ?_⟩
  unfold popVar
  rw [hmean0]
  simp only [sub_zero, List.map_map, List.length_map]
  have hcomp : ((fun y => y ^ 2) ∘ (fun x => (x - listMean xs) / s)) =
      fun x => ((x - listMean xs) ^ 2) / s ^ 2 := by
    funext x
    simp [Function.comp, div_pow]
  rw [hcomp, sum_map_div xs (fun x => (x - listMean xs) ^ 2) (s ^ 2), div_right_comm]
  have hpv : (xs.map (fun x => (x - listMean xs) ^ 2)).sum / (xs.length : ℚ) = popVar xs := rfl
  rw [hpv, hs2, div_self hv]

theorem dropNA_map_option_map (f : ℚ → ℚ) (l : List Cell) :
    dropNA (l.map (Option.map f)) = (dropNA l).map f := by
  induction l with
  | nil => rfl
  | cons a t ih =>
    cases a with
    | none => simpa [dropNA] using ih
    | some x => simpa [dropNA] using ih

/-- `StandardScaler` on one column with nonzero variance: the output
column keeps its name, becomes `float64`, and its present values have
mean 0 and population variance 1, provided `sqrtF` is a square root of
the variance. -/
theorem standardizeCol_spec (sqrtF : ℚ → ℚ) (c : Col)
    (hv : popVar (dropNA c.vals) ≠ 0)
    (hs : sqrtF (popVar (dropNA c.vals)) ^ 2 = popVar (dropNA c.vals)) :
    (standardizeCol sqrtF c).name = c.name ∧
      listMean (dropNA (standardizeCol sqrtF c).vals) = 0 ∧
      popVar (dropNA (standardizeCol sqrtF c).vals) = 1 := by
  obtain ⟨h1, h2⟩ := standardize_mean_var (dropNA c.vals)
    (sqrtF (popVar (dropNA c.vals))) hs hv
  refine ⟨rfl, ?_, ?_⟩
  · show listMean (dropNA (c.vals.map (Option.map
      (fun x => (x - listMean (dropNA c.vals)) / stdScale sqrtF (dropNA c.vals))))) = 0
    unfold stdScale
    rw [if_neg hv, dropNA_map_option_map]
    exact h1
  · show popVar (dropNA (c.vals.map (Option.map
      (fun x => (x - listMean (dropNA c.vals)) / stdScale sqrtF (dropNA c.vals))))) = 1
    unfold stdScale
    rw [if_neg hv, dropNA_map_option_map]
    exact h2

theorem scaleFeatureCols_length (sqrtF : ℚ → ℚ) (ex : List String) (t : Table) :
    (scaleFeatureCols sqrtF ex t).cols.length = t.cols.length := by
  unfold scaleFeatureCols
  by_cases h : (t.cols.filter (fun c => !(decide (c.name ∈ ex)))).isEmpty = true
  · rw [if_pos h]
  · rw [if_neg h]
    simp

theorem scaleFeatureCols_index (sqrtF : ℚ → ℚ) (ex : List String) (t : Table) :
    (scaleFeatureCols sqrtF ex t).index = t.index := by
  unfold scaleFeatureCols
  by_cases h : (t.cols.filter (fun c => !(decide (c.name ∈ ex)))).isEmpty = true
  · rw [if_pos h]
  · rw [if_neg h]

theorem scaleFeatureCols_indexName (sqrtF : ℚ → ℚ) (ex : List String) (t : Table) :
    (scaleFeatureCols sqrtF ex t).indexName = t.indexName := by
  unfold scaleFeatureCols
  by_cases h : (t.cols.filter (fun c => !(decide (c.name ∈ ex)))).isEmpty = true
  · rw [if_pos h]
  · rw [if_neg h]

theorem scaleFeatureCols_colNames (sqrtF : ℚ → ℚ) (ex : List String) (t : Table) :
    (scaleFeatureCols sqrtF ex t).colNames = t.colNames := by
  unfold scaleFeatureCols
  by_cases h : (t.cols.filter (fun c => !(decide (c.name ∈ ex)))).isEmpty = true
  · rw [if_pos h]
  · rw [if_neg h]
    unfold Table.colNames
    simp only [List.map_map]
    apply List.map_congr_left
    intro c hc
    by_cases hcx : c.name ∈ ex
    · simp [Function.comp, hcx]
    · simp [Function.comp, hcx, standardizeCol]

theorem scaleFeatureCols_getD_excluded (sqrtF : ℚ → ℚ) (ex : List String)
    (t : Table) (j : Nat) (hj : j < t.cols.length)
    (hexc : (t.cols.getD j default).name ∈ ex) :
    (scaleFeatureCols sqrtF ex t).cols.getD j default = t.cols.getD j default := by
  unfold scaleFeatureCols
  by_cases h : (t.cols.filter (fun c => !(decide (c.name ∈ ex)))).isEmpty = true
  · rw [if_pos h]
  · rw [if_neg h]
    simp only
    have hx : t.cols.getD j default = t.cols[j] := List.getD_eq_getElem _ _ hj
    rw [hx] at hexc
    rw [List.getD_eq_getElem _ _ (show j < (t.cols.map (fun c =>
      if decide (c.name ∈ ex) = true then c else standardizeCol sqrtF c)).length
      by simpa using hj)]
    rw [List.getElem_map]
    rw [if_pos (by simpa using hexc)]
    exact hx.symm

theorem scaleFeatureCols_getD_feature (sqrtF : ℚ → ℚ) (ex : List String)
    (t : Table) (j : Nat) (hj : j < t.cols.length)
    (hexc : (t.cols.getD j default).name ∉ ex) :
    (scaleFeatureCols sqrtF ex t).cols.getD j default =
      standardizeCol sqrtF (t.cols.getD j default) := by
  have hguard : (t.cols.filter (fun c => !(decide (c.name ∈ ex)))).isEmpty = false := by
    rw [List.isEmpty_eq_false]
    intro h0
    have hmem : t.cols.getD j default ∈ t.cols := by
      rw [List.getD_eq_getElem _ _ hj]
      exact List.getElem_mem hj
    have := List.filter_eq_nil_iff.mp h0 _ hmem
    simp only [Bool.not_eq_true', decide_eq_false_iff_not] at this
    exact this hexc
  unfold scaleFeatureCols
  rw [hguard]
  simp only [Bool.false_eq_true, if_false]
  have hx : t.cols.getD j default = t.cols[j] := List.getD_eq_getElem _ _ hj
  rw [hx] at hexc
  rw [List.getD_eq_getElem _ _ (show j < (t.cols.map (fun c =>
    if decide (c.name ∈ ex) = true then c else standardizeCol sqrtF c)).length
    by simpa using hj)]
  rw [List.getElem_map]
  rw [if_neg (by simpa using hexc)]
  rw [hx]

/-! ### Heap lemmas for the `copy` contract -/

/-- `copy=False` on the heap: the function writes the scaled table through
the caller's reference and returns that same reference. -/
theorem scaleHeap_false (f : Table → Table) (h : Heap) (r : Nat) (hr : r < h.length) :
    (scaleHeap f h r false).2 = r ∧
      (scaleHeap f h r false).1.getD r default = f (h.getD r default) := by
  refine ⟨rfl, ?_⟩
  show (h.set r (f (h.getD r default))).getD r default = f (h.getD r default)
  rw [List.getD_eq_getElem _ _ (by simpa using hr)]
  rw [List.getElem_set_self]

/-- `copy=True` on the heap: the function allocates a fresh cell, the
caller's cell is untouched, and the returned reference is the fresh one
(in particular different from every pre-existing reference). -/
theorem scaleHeap_true (f : Table → Table) (h : Heap) (r : Nat) :
    (scaleHeap f h r true).2 = h.length ∧
      (scaleHeap f h r true).1.length = h.length + 1 ∧
      (∀ i, i < h.length →
        (scaleHeap f h r true).1.getD i default = h.getD i default) ∧
      (scaleHeap f h r true).1.getD h.length default =
        f (h.getD r default) := by
  refine ⟨rfl, by simp [scaleHeap], ?_, ?_⟩
  · intro i hi
    show ((h ++ [h.getD r default]).set h.length
      (f ((h ++ [h.getD r default]).getD h.length default))).getD i default = _
    rw [List.getD_eq_getElem _ _ (by simp; omega)]
    rw [List.getElem_set_ne (by omega)]
    rw [List.getElem_append_left hi]
    rw [List.getD_eq_getElem _ _ hi]
  · show ((h ++ [h.getD r default]).set h.length
      (f ((h ++ [h.getD r default]).getD h.length default))).getD h.length default = _
    rw [List.getD_eq_getElem _ _ (by simp)]
    rw [List.getElem_set_self]
    congr 1
    rw [List.getD_eq_getElem _ _ (by simp)]
    rw [List.getElem_append_right (by omega)]
    simp

/-- C8's property holds of `scaleFeatureCols` for any exclusion list. -/
theorem scaleFeatureCols_colspec (sqrtF : ℚ → ℚ) (ex : List String) (t : Table)
    (j : Nat) (hj : j < t.cols.length) :
    ScaledColSpec sqrtF (scaleFeatureCols sqrtF ex) ex t j := by
  constructor
  · intro hexc
    exact scaleFeatureCols_getD_excluded sqrtF ex t j hj hexc
  · intro hexc hna hv hs
    rw [scaleFeatureCols_getD_feature sqrtF ex t j hj hexc]
    obtain ⟨h1, h2, h3⟩ := standardizeCol_spec sqrtF (t.cols.getD j default) hv hs
    refine ⟨h1, h2, by rw [h2]; norm_num, h3, ?_⟩
    intro s hs0 hs1
    rw [h3] at hs1
    have hsone : s = 1 := by
      have hfact : (s - 1) * (s + 1) = 0 := by nlinarith
      rcases mul_eq_zero.mp hfact with hcase | hcase
      · linarith
      · linarith
    rw [hsone]
    norm_num

/-- C7: for each of `scale_metabolomics`, `scale_proteomics` and
`scale_clinical_labs` on the heap: with `copy=False` the call returns the
caller's own reference (the identical table object) whose cell now holds
the scaled table (in-place mutation); with `copy=True` (the default) the
returned reference is a different object and the caller's table is
unchanged after the call. -/
theorem scale_copy_contract (sqrtF : ℚ → ℚ) (excl : Option (List String))
    (h : Heap) (r : Nat) (hr : r < h.length) :
    ((scale_metabolomics_heap sqrtF excl h r false).2 = r ∧
     (scale_metabolomics_heap sqrtF excl h r false).1.getD r default =
       scale_metabolomics sqrtF (h.getD r default) excl ∧
     (scale_metabolomics_heap sqrtF excl h r true).2 ≠ r ∧
     (scale_metabolomics_heap sqrtF excl h r true).1.getD r default =
       h.getD r default) ∧
    ((scale_proteomics_heap sqrtF excl h r false).2 = r ∧
     (scale_proteomics_heap sqrtF excl h r false).1.getD r default =
       scale_proteomics sqrtF (h.getD r default) excl ∧
     (scale_proteomics_heap sqrtF excl h r true).2 ≠ r ∧
     (scale_proteomics_heap sqrtF excl h r true).1.getD r default =
       h.getD r default) ∧
    ((scale_clinical_labs_heap sqrtF excl h r false).2 = r ∧
     (scale_clinical_labs_heap sqrtF excl h r false).1.getD r default =
       scale_clinical_labs sqrtF (h.getD r default) excl ∧
     (scale_clinical_labs_heap sqrtF excl h r true).2 ≠ r ∧
     (scale_clinical_labs_heap sqrtF excl h r true).1.getD r default =
       h.getD r default) := by
  have hcontract : ∀ f : Table → Table,
      (scaleHeap f h r false).2 = r ∧
      (scaleHeap f h r false).1.getD r default = f (h.getD r default) ∧
      (scaleHeap f h r true).2 ≠ r ∧
      (scaleHeap f h r true).1.getD r default = h.getD r default := by
    intro f
    obtain ⟨e1, e2⟩ := scaleHeap_false f h r hr
    obtain ⟨t1, -, t3, -⟩ := scaleHeap_true f h r
    refine ⟨e1, e2, ?_, t3 r hr⟩
    rw [t1]
    omega
  exact ⟨hcontract _, hcontract _, hcontract _⟩

/-- C7 witness: on a one-table heap, `copy=False` returns reference 0 and
the heap cell now holds the scaled table; `copy=True` returns a different
reference and leaves the caller's table equal to the original. -/
theorem scale_copy_contract_witness :
    (scale_metabolomics_heap (fun _ => 1) none [exScaleTable] 0 false).2 = 0 ∧
      (scale_metabolomics_heap (fun _ => 1) none [exScaleTable] 0 true).2 ≠ 0 ∧
      (scale_metabolomics_heap (fun _ => 1) none [exScaleTable] 0 true).1.getD 0
        default = exScaleTable := by
  have h := (scale_copy_contract (fun _ => 1) none [exScaleTable] 0 (by decide)).1
  refine ⟨h.1, h.2.2.1, ?_⟩
  rw [h.2.2.2]
  rfl

/-- C8: for each of `scale_metabolomics`, `scale_proteomics` and
`scale_clinical_labs` (default metadata lists, value semantics): every
metadata column is returned unchanged, and every feature column without
missing values and with nonzero population variance — given that the
library square root `sqrtF` is correct at that variance — comes back with
its sample mean exactly 0 (hence within `1e-10` of 0) and population
variance exactly 1, so the population standard deviation is within
`1e-10` of 1.  The transform is fitted on just the rows passed in this
call, as `ScaledColSpec` reads. -/
theorem scale_mean_std_spec (sqrtF : ℚ → ℚ) (t : Table) (j : Nat)
    (hj : j < t.cols.length) :
    ScaledColSpec sqrtF (fun d => scale_metabolomics sqrtF d none)
        metabolomicsExcludeCols t j ∧
    ScaledColSpec sqrtF (fun d => scale_proteomics sqrtF d none)
        proteomicsMetadataCols t j ∧
    ScaledColSpec sqrtF (fun d => scale_clinical_labs sqrtF d none)
        clinicalMetadataCols t j :=
  ⟨scaleFeatureCols_colspec sqrtF metabolomicsExcludeCols t j hj,
   scaleFeatureCols_colspec sqrtF proteomicsMetadataCols t j hj,
   scaleFeatureCols_colspec sqrtF clinicalMetadataCols t j hj⟩

/-- C8 witness: scaling `exScaleTable` (feature column `met1` with values
0 and 2: mean 1, population variance 1) with the correct square root at 1
yields a `met1` column with mean 0 and population variance 1, and leaves
the metadata column `shannon` unchanged. -/
theorem scale_mean_std_spec_witness :
    ((scale_metabolomics (fun _ => 1) exScaleTable none).cols.getD 0 default).name
        = "met1" ∧
      listMean (dropNA ((scale_metabolomics (fun _ => 1) exScaleTable none).cols.getD
        0 default).vals) = 0 ∧
      popVar (dropNA ((scale_metabolomics (fun _ => 1) exScaleTable none).cols.getD
        0 default).vals) = 1 ∧
      (scale_metabolomics (fun _ => 1) exScaleTable none).cols.getD 1 default =
        exScaleTable.cols.getD 1 default := by
  have hvar : popVar (dropNA (exScaleTable.cols.getD 0 default).vals) = 1 := by
    norm_num [exScaleTable, popVar, listMean, dropNA, List.filterMap]
  have h := (scale_mean_std_spec (fun _ => 1) exScaleTable 0 (by decide)).1
  have hfeat := h.2 (by decide) (by decide) (by rw [hvar]; norm_num)
    (by rw [hvar]; norm_num)
  have hmeta := ((scale_mean_std_spec (fun _ => 1) exScaleTable 1 (by decide)).1).1
    (by decide)
  exact ⟨by rw [hfeat.1]; rfl, hfeat.2.1, hfeat.2.2.2.1, hmeta⟩

/-! ### Merge lemmas -/

lemma ite_none_then_some_eq {α : Type} {C : Prop} [Decidable C] {a b : α} :
    (if C then none else some a) = some b ↔ ¬ C ∧ a = b := by
  by_cases h : C <;> simp [h]

lemma getD_mem {l : List Cell} {i : Nat} (hi : i < l.length) : l.getD i none ∈ l := by
  rw [List.getD_eq_getElem _ _ hi]
  exact List.getElem_mem hi

lemma mem_getD_pos {l : List Cell} {k : Cell} (hk : k ∈ l) :
    ∃ i, i < l.length ∧ l.getD i none = k := by
  obtain ⟨i, hi, he⟩ := List.mem_iff_getElem.mp hk
  exact ⟨i, hi, by rw [List.getD_eq_getElem _ _ hi]; exact he⟩

lemma mem_matchPairs_inner (lk rk : List Cell) (p : Option Nat × Option Nat) :
    p ∈ matchPairs lk rk Join.inner ↔
    ∃ i, i < lk.length ∧ ∃ j, j < rk.length ∧
      rk.getD j none = lk.getD i none ∧ p = (some i, some j) := by
  show p ∈ (List.range lk.length).flatMap (fun i =>
    (List.range rk.length).filterMap (fun j =>
      if rk.getD j none = lk.getD i none then some (some i, some j) else none)) ↔ _
  simp only [List.mem_flatMap, List.mem_filterMap, List.mem_range,
    Option.ite_none_right_eq_some, Option.some.injEq]
  constructor
  · rintro ⟨i, hi, j, hj, heq, hp⟩
    exact ⟨i, hi, j, hj, heq, hp.symm⟩
  · rintro ⟨i, hi, j, hj, heq, hp⟩
    exact ⟨i, hi, j, hj, heq, hp.symm⟩

lemma mem_matchPairs_outer (lk rk : List Cell) (p : Option Nat × Option Nat) :
    p ∈ matchPairs lk rk Join.outer ↔
    (p ∈ matchPairs lk rk Join.inner ∨
     (∃ i, i < lk.length ∧ ¬ (lk.getD i none ∈ rk) ∧ p = (some i, none)) ∨
     (∃ j, j < rk.length ∧ ¬ (rk.getD j none ∈ lk) ∧ p = (none, some j))) := by
  have h : matchPairs lk rk Join.outer =
      matchPairs lk rk Join.inner
      ++ ((List.range lk.length).filterMap (fun i =>
            if decide ((lk.getD i none) ∈ rk) then none else some (some i, none)))
      ++ ((List.range rk.length).filterMap (fun j =>
            if decide ((rk.getD j none) ∈ lk) then none else some (none, some j))) := rfl
  rw [h]
  simp only [List.mem_append, List.mem_filterMap, List.mem_range,
    ite_none_then_some_eq, decide_eq_true_eq, or_assoc]
  constructor
  · rintro (hp | ⟨i, hi, hni, hp⟩ | ⟨j, hj, hnj, hp⟩)
    · exact Or.inl hp
    · exact Or.inr (Or.inl ⟨i, hi, hni, hp.symm⟩)
    · exact Or.inr (Or.inr ⟨j, hj, hnj, hp.symm⟩)
  · rintro (hp | ⟨i, hi, hni, hp⟩ | ⟨j, hj, hnj, hp⟩)
    · exact Or.inl hp
    · exact Or.inr (Or.inl ⟨i, hi, hni, hp.symm⟩)
    · exact Or.inr (Or.inr ⟨j, hj, hnj, hp.symm⟩)

/-- Inner `merge` keeps exactly the sample keys present in both tables. -/
lemma mem_mergeTables_index_inner (l r : Table) (k : Cell) :
    k ∈ (mergeTables l r Join.inner).index ↔ k ∈ l.index ∧ k ∈ r.index := by
  show k ∈ List.map _ (matchPairs l.index r.index Join.inner) ↔ _
  rw [List.mem_map]
  constructor
  · rintro ⟨p, hp, hpk⟩
    obtain ⟨i, hi, j, hj, heq, hp2⟩ := (mem_matchPairs_inner _ _ p).mp hp
    subst hp2
    have hpk2 : l.index.getD i none = k := hpk
    constructor
    · rw [← hpk2]
      exact getD_mem hi
    · rw [← hpk2, ← heq]
      exact getD_mem hj
  · rintro ⟨hkl, hkr⟩
    obtain ⟨i, hi, hie⟩ := mem_getD_pos hkl
    obtain ⟨j, hj, hje⟩ := mem_getD_pos hkr
    exact ⟨(some i, some j),
      (mem_matchPairs_inner _ _ _).mpr ⟨i, hi, j, hj, by rw [hie, hje], rfl⟩, hie⟩

/-- Outer `merge` keeps exactly the sample keys present in either table. -/
lemma mem_mergeTables_index_outer (l r : Table) (k : Cell) :
    k ∈ (mergeTables l r Join.outer).index ↔ k ∈ l.index ∨ k ∈ r.index := by
  show k ∈ List.map _ (matchPairs l.index r.index Join.outer) ↔ _
  rw [List.mem_map]
  constructor
  · rintro ⟨p, hp, hpk⟩
    rcases (mem_matchPairs_outer _ _ p).mp hp with hin | ⟨i, hi, hni, hp2⟩ | ⟨j, hj, hnj, hp2⟩
    · obtain ⟨i, hi, j, hj, heq, hp2⟩ := (mem_matchPairs_inner _ _ p).mp hin
      subst hp2
      have hpk2 : l.index.getD i none = k := hpk
      left
      rw [← hpk2]
      exact getD_mem hi
    · subst hp2
      have hpk2 : l.index.getD i none = k := hpk
      left
      rw [← hpk2]
      exact getD_mem hi
    · subst hp2
      have hpk2 : r.index.getD j none = k := hpk
      right
      rw [← hpk2]
      exact getD_mem hj
  · intro hk
    by_cases hkl : k ∈ l.index
    · by_cases hkr : k ∈ r.index
      · obtain ⟨i, hi, hie⟩ := mem_getD_pos hkl
        obtain ⟨j, hj, hje⟩ := mem_getD_pos hkr
        exact ⟨(some i, some j),
          (mem_matchPairs_outer _ _ _).mpr (Or.inl
            ((mem_matchPairs_inner _ _ _).mpr ⟨i, hi, j, hj, by rw [hie, hje], rfl⟩)),
          hie⟩
      · obtain ⟨i, hi, hie⟩ := mem_getD_pos hkl
        refine ⟨(some i, none),
          (mem_matchPairs_outer _ _ _).mpr (Or.inr (Or.inl ⟨i, hi, ?_, rfl⟩)), hie⟩
        rw [hie]
        exact hkr
    · rcases hk with hk | hk
      · exact absurd hk hkl
      · obtain ⟨j, hj, hje⟩ := mem_getD_pos hk
        refine ⟨(none, some j),
          (mem_matchPairs_outer _ _ _).mpr (Or.inr (Or.inr ⟨j, hj, ?_, rfl⟩)), hje⟩
        rw [hje]
        exact hkl

theorem mergeTables_colNames (l r : Table) (how : Join) :
    (mergeTables l r how).colNames = l.colNames ++ r.colNames := by
  unfold mergeTables Table.colNames
  simp only [List.map_append, List.map_map]
  congr 1

theorem mergeTables_indexName (l r : Table) (how : Join) :
    (mergeTables l r how).indexName = l.indexName := rfl


theorem scale_metabolomics_colNames (sqrtF : ℚ → ℚ) (t : Table) :
    (scale_metabolomics sqrtF t none).colNames = t.colNames :=
  scaleFeatureCols_colNames sqrtF metabolomicsExcludeCols t

theorem scale_proteomics_colNames (sqrtF : ℚ → ℚ) (t : Table) :
    (scale_proteomics sqrtF t none).colNames = t.colNames :=
  scaleFeatureCols_colNames sqrtF proteomicsMetadataCols t

theorem scale_clinical_labs_colNames (sqrtF : ℚ → ℚ) (t : Table) :
    (scale_clinical_labs sqrtF t none).colNames = t.colNames :=
  scaleFeatureCols_colNames sqrtF clinicalMetadataCols t

theorem scale_metabolomics_index (sqrtF : ℚ → ℚ) (t : Table) :
    (scale_metabolomics sqrtF t none).index = t.index :=
  scaleFeatureCols_index sqrtF metabolomicsExcludeCols t

theorem scale_proteomics_index (sqrtF : ℚ → ℚ) (t : Table) :
    (scale_proteomics sqrtF t none).index = t.index :=
  scaleFeatureCols_index sqrtF proteomicsMetadataCols t

theorem scale_clinical_labs_index (sqrtF : ℚ → ℚ) (t : Table) :
    (scale_clinical_labs sqrtF t none).index = t.index :=
  scaleFeatureCols_index sqrtF clinicalMetadataCols t

/-- C9: `scale_and_combine_omics` always scales the metabolomics table and
returns it unmerged when it is alone; a provided proteomics or clinical
table is scaled and merged pairwise left to right in the order
metabolomics → proteomics → clinical under the requested join policy, so
with all three tables the result carries every column of all three inputs,
an `inner` join keeping exactly the sample keys common to the three tables
and an `outer` join keeping exactly the keys present in at least one. -/
theorem scale_and_combine_spec (sqrtF : ℚ → ℚ) (m p c : Table) :
    (∀ join, scale_and_combine_omics sqrtF m none none join =
      scale_metabolomics sqrtF m none) ∧
    (∀ join, scale_and_combine_omics sqrtF m (some p) none join =
      mergeTables (scale_metabolomics sqrtF m none)
        (scale_proteomics sqrtF p none) join) ∧
    (∀ join, scale_and_combine_omics sqrtF m none (some c) join =
      mergeTables (scale_metabolomics sqrtF m none)
        (scale_clinical_labs sqrtF c none) join) ∧
    (∀ join, scale_and_combine_omics sqrtF m (some p) (some c) join =
      mergeTables
        (mergeTables (scale_metabolomics sqrtF m none)
          (scale_proteomics sqrtF p none) join)
        (scale_clinical_labs sqrtF c none) join) ∧
    (∀ join, (scale_and_combine_omics sqrtF m (some p) (some c) join).colNames =
      m.colNames ++ p.colNames ++ c.colNames) ∧
    (∀ k, k ∈ (scale_and_combine_omics sqrtF m (some p) (some c) Join.inner).index ↔
      k ∈ m.index ∧ k ∈ p.index ∧ k ∈ c.index) ∧
    (∀ k, k ∈ (scale_and_combine_omics sqrtF m (some p) (some c) Join.outer).index ↔
      k ∈ m.index ∨ k ∈ p.index ∨ k ∈ c.index) := by
  have hall : ∀ join, scale_and_combine_omics sqrtF m (some p) (some c) join =
      mergeTables
        (mergeTables (scale_metabolomics sqrtF m none)
          (scale_proteomics sqrtF p none) join)
        (scale_clinical_labs sqrtF c none) join := fun _ => rfl
  refine ⟨fun _ => rfl, fun _ => rfl, fun _ => rfl, hall, ?_, ?_, ?_⟩
  · intro join
    rw [hall join, mergeTables_colNames, mergeTables_colNames,
      scale_metabolomics_colNames, scale_proteomics_colNames,
      scale_clinical_labs_colNames]
  · intro k
    rw [hall Join.inner, mem_mergeTables_index_inner, mem_mergeTables_index_inner,
      scale_metabolomics_index, scale_proteomics_index, scale_clinical_labs_index,
      and_assoc]
  · intro k
    rw [hall Join.outer, mem_mergeTables_index_outer, mem_mergeTables_index_outer,
      scale_metabolomics_index, scale_proteomics_index, scale_clinical_labs_index,
      or_assoc]

/-! ### Heap lemmas for the combine pipeline -/

lemma getD_append_left {l ext : List Table} {i : Nat} (hi : i < l.length) :
    (l ++ ext).getD i default = l.getD i default := by
  rw [List.getD_eq_getElem _ _ (by simp only [List.length_append]; omega),
    List.getElem_append_left hi, List.getD_eq_getElem _ _ hi]

/-- The merge fold only appends freshly allocated tables to the heap. -/
lemma mergeFoldHeap_prefix (join : Join) (rs : List Nat) (st : Heap × Nat) :
    ∃ ext, (mergeFoldHeap join st rs).1 = st.1 ++ ext := by
  induction rs generalizing st with
  | nil => exact ⟨[], (List.append_nil _).symm⟩
  | cons r2 rest ih =>
    have hstep : mergeFoldHeap join st (r2 :: rest) =
        mergeFoldHeap join
          (st.1 ++ [mergeTables (st.1.getD st.2 default) (st.1.getD r2 default) join],
           st.1.length) rest := rfl
    rw [hstep]
    obtain ⟨ext, hext⟩ := ih _
    exact ⟨[mergeTables (st.1.getD st.2 default) (st.1.getD r2 default) join] ++ ext,
      by rw [hext]; simp⟩

/-- A non-trivial merge fold returns a reference allocated at or beyond the
end of the starting heap. -/
lemma mergeFoldHeap_ref (join : Join) (r2 : Nat) (rest : List Nat) (st : Heap × Nat) :
    st.1.length ≤ (mergeFoldHeap join st (r2 :: rest)).2 := by
  induction rest generalizing st r2 with
  | nil => exact le_refl _
  | cons r3 rest2 ih =>
    have hstep : mergeFoldHeap join st (r2 :: r3 :: rest2) =
        mergeFoldHeap join
          (st.1 ++ [mergeTables (st.1.getD st.2 default) (st.1.getD r2 default) join],
           st.1.length) (r3 :: rest2) := rfl
    rw [hstep]
    refine le_trans ?_ (ih _ _)
    simp only [List.length_append, List.length_cons, List.length_nil]
    omega

/-- C10: `scale_and_combine_omics` never mutates the caller's tables: every
internal `scale_*` call uses the default `copy=True` and every `merge`
allocates a fresh table, so on the heap every pre-existing cell —
in particular the metabolomics, proteomics, and clinical tables passed
in — is unchanged after the call, and the returned reference lies beyond
the original heap, hence is a distinct new table. -/
theorem scale_and_combine_no_mutation (sqrtF : ℚ → ℚ) (h : Heap) (rm : Nat)
    (rp rc : Option Nat) (join : Join) :
    (∀ i, i < h.length →
      (scale_and_combine_heap sqrtF h rm rp rc join).1.getD i default
        = h.getD i default) ∧
    h.length ≤ (scale_and_combine_heap sqrtF h rm rp rc join).2 := by
  obtain ⟨hm2, hmlen, hmpres, -⟩ :=
    scaleHeap_true (fun t => scale_metabolomics sqrtF t none) h rm
  cases rp with
  | none =>
    cases rc with
    | none =>
      have hres : scale_and_combine_heap sqrtF h rm none none join =
          scaleHeap (fun t => scale_metabolomics sqrtF t none) h rm true := rfl
      rw [hres]
      exact ⟨hmpres, hm2.ge⟩
    | some r =>
      obtain ⟨hc2, hclen, hcpres, -⟩ :=
        scaleHeap_true (fun t => scale_clinical_labs sqrtF t none)
          (scaleHeap (fun t => scale_metabolomics sqrtF t none) h rm true).1 r
      have hres : scale_and_combine_heap sqrtF h rm none (some r) join =
          mergeFoldHeap join
            ((scaleHeap (fun t => scale_clinical_labs sqrtF t none)
                (scaleHeap (fun t => scale_metabolomics sqrtF t none) h rm true).1 r true).1,
             (scaleHeap (fun t => scale_metabolomics sqrtF t none) h rm true).2)
            [(scaleHeap (fun t => scale_clinical_labs sqrtF t none)
                (scaleHeap (fun t => scale_metabolomics sqrtF t none) h rm true).1 r true).2] := rfl
      rw [hres]
      constructor
      · intro i hi
        obtain ⟨ext, hext⟩ := mergeFoldHeap_prefix join
          [(scaleHeap (fun t => scale_clinical_labs sqrtF t none)
              (scaleHeap (fun t => scale_metabolomics sqrtF t none) h rm true).1 r true).2]
          ((scaleHeap (fun t => scale_clinical_labs sqrtF t none)
              (scaleHeap (fun t => scale_metabolomics sqrtF t none) h rm true).1 r true).1,
           (scaleHeap (fun t => scale_metabolomics sqrtF t none) h rm true).2)
        rw [hext]
        rw [getD_append_left (show i < _ from by rw [hclen, hmlen]; omega)]
        rw [hcpres i (by rw [hmlen]; omega)]
        exact hmpres i hi
      · refine le_trans ?_ (mergeFoldHeap_ref join _ _ _)
        show h.length ≤ (scaleHeap (fun t => scale_clinical_labs sqrtF t none)
            (scaleHeap (fun t => scale_metabolomics sqrtF t none) h rm true).1 r true).1.length
        rw [hclen, hmlen]
        omega
  | some rP =>
    obtain ⟨hp2, hplen, hppres, -⟩ :=
      scaleHeap_true (fun t => scale_proteomics sqrtF t none)
        (scaleHeap (fun t => scale_metabolomics sqrtF t none) h rm true).1 rP
    cases rc with
    | none =>
      have hres : scale_and_combine_heap sqrtF h rm (some rP) none join =
          mergeFoldHeap join
            ((scaleHeap (fun t => scale_proteomics sqrtF t none)
                (scaleHeap (fun t => scale_metabolomics sqrtF t none) h rm true).1 rP true).1,
             (scaleHeap (fun t => scale_metabolomics sqrtF t none) h rm true).2)
            [(scaleHeap (fun t => scale_proteomics sqrtF t none)
                (scaleHeap (fun t => scale_metabolomics sqrtF t none) h rm true).1 rP true).2] := rfl
      rw [hres]
      constructor
      · intro i hi
        obtain ⟨ext, hext⟩ := mergeFoldHeap_prefix join
          [(scaleHeap (fun t => scale_proteomics sqrtF t none)
              (scaleHeap (fun t => scale_metabolomics sqrtF t none) h rm true).1 rP true).2]
          ((scaleHeap (fun t => scale_proteomics sqrtF t none)
              (scaleHeap (fun t => scale_metabolomics sqrtF t none) h rm true).1 rP true).1,
           (scaleHeap (fun t => scale_metabolomics sqrtF t none) h rm true).2)
        rw [hext]
        rw [getD_append_left (show i < _ from by rw [hplen, hmlen]; omega)]
        rw [hppres i (by rw [hmlen]; omega)]
        exact hmpres i hi
      · refine le_trans ?_ (mergeFoldHeap_ref join _ _ _)
        show h.length ≤ (scaleHeap (fun t => scale_proteomics sqrtF t none)
            (scaleHeap (fun t => scale_metabolomics sqrtF t none) h rm true).1 rP true).1.length
        rw [hplen, hmlen]
        omega
    | some rC =>
      obtain ⟨hc2, hclen, hcpres, -⟩ :=
        scaleHeap_true (fun t => scale_clinical_labs sqrtF t none)
          (scaleHeap (fun t => scale_proteomics sqrtF t none)
            (scaleHeap (fun t => scale_metabolomics sqrtF t none) h rm true).1 rP true).1 rC
      have hres : scale_and_combine_heap sqrtF h rm (some rP) (some rC) join =
          mergeFoldHeap join
            ((scaleHeap (fun t => scale_clinical_labs sqrtF t none)
                (scaleHeap (fun t => scale_proteomics sqrtF t none)
                  (scaleHeap (fun t => scale_metabolomics sqrtF t none) h rm true).1 rP true).1
                rC true).1,
             (scaleHeap (fun t => scale_metabolomics sqrtF t none) h rm true).2)
            [(scaleHeap (fun t => scale_proteomics sqrtF t none)
                (scaleHeap (fun t => scale_metabolomics sqrtF t none) h rm true).1 rP true).2,
             (scaleHeap (fun t => scale_clinical_labs sqrtF t none)
                (scaleHeap (fun t => scale_proteomics sqrtF t none)
                  (scaleHeap (fun t => scale_metabolomics sqrtF t none) h rm true).1 rP true).1
                rC true).2] := rfl
      rw [hres]
      constructor
      · intro i hi
        obtain ⟨ext, hext⟩ := mergeFoldHeap_prefix join
          [(scaleHeap (fun t => scale_proteomics sqrtF t none)
              (scaleHeap (fun t => scale_metabolomics sqrtF t none) h rm true).1 rP true).2,
           (scaleHeap (fun t => scale_clinical_labs sqrtF t none)
              (scaleHeap (fun t => scale_proteomics sqrtF t none)
                (scaleHeap (fun t => scale_metabolomics sqrtF t none) h rm true).1 rP true).1
              rC true).2]
          ((scaleHeap (fun t => scale_clinical_labs sqrtF t none)
              (scaleHeap (fun t => scale_proteomics sqrtF t none)
                (scaleHeap (fun t => scale_metabolomics sqrtF t none) h rm true).1 rP true).1
              rC true).1,
           (scaleHeap (fun t => scale_metabolomics sqrtF t none) h rm true).2)
        rw [hext]
        rw [getD_append_left (show i < _ from by rw [hclen, hplen, hmlen]; omega)]
        rw [hcpres i (by rw [hplen, hmlen]; omega)]
        rw [hppres i (by rw [hmlen]; omega)]
        exact hmpres i hi
      · refine le_trans ?_ (mergeFoldHeap_ref join _ _ _)
        show h.length ≤ (scaleHeap (fun t => scale_clinical_labs sqrtF t none)
            (scaleHeap (fun t => scale_proteomics sqrtF t none)
              (scaleHeap (fun t => scale_metabolomics sqrtF t none) h rm true).1 rP true).1
            rC true).1.length
        rw [hclen, hplen, hmlen]
        omega

/-- Witness for C10 at a concrete heap of three tables, scaling and merging
all three: the caller's cell is untouched and the result is a fresh cell. -/
theorem scale_and_combine_no_mutation_witness :
    (scale_and_combine_heap (fun q => q) [exScaleTable] 0 (some 0) (some 0)
      Join.inner).1.getD 0 default = exScaleTable ∧
    1 ≤ (scale_and_combine_heap (fun q => q) [exScaleTable] 0 (some 0) (some 0)
      Join.inner).2 := by
  obtain ⟨hpres, href⟩ :=
    scale_and_combine_no_mutation (fun q => q) [exScaleTable] 0 (some 0) (some 0) Join.inner
  refine ⟨?_, href⟩
  rw [hpres 0 (by decide)]
  rfl

end GutMetrics
